import Mathlib

/-!
# Service-availability exporter: the aggregation engine

A shallow embedding of `collector_prom.go`, of the parts of `collector.go` it
relies on and of `createServicesMaps` and `openServices` of `main.go`,
followed by theorems about it.

Conventions of the embedding.

* A finite `float64` value is the rational it denotes (`ℚ`).  The code only
  compares values with `0.0` and `1.0` and subtracts not-ready counts from
  totals; that subtraction is the float64 one, the exact difference rounded
  to nearest with ties to even (`subFloat64`).  NaN and the infinities are
  outside the model.
* A Go `map[string]V` is the list of its entries, keys pairwise distinct,
  in insertion order (`GoMap V`).  The order in which a `range` statement
  visits the entries is not fixed by the language: every `range` over a map
  takes a `RangeOrder`, an arbitrary permutation chosen by the runtime.
* A panic is the result `none`.
* `PromQuery` (file `api_prom.go`) and the `regexp` package are not part of
  the embedded sources; both are parameters (`Backend`, `Regexp`).  The
  queries issued so far are threaded through as a log.  File access and
  `json.Unmarshal` are a parameter too (`ServicesFile`).
-/

set_option linter.unusedVariables false

namespace SaExporter

/-! ## Go maps -/

/-- A Go map with string keys, as the list of its entries. -/
abbrev GoMap (V : Type) := List (String × V)

/-- The comma-ok lookup `v, ok := m[k]`. -/
def GoMap.get? {V : Type} : GoMap V → String → Option V
  | [], _ => none
  | (k', v') :: rest, k => if k' = k then some v' else GoMap.get? rest k

/-- The assignment `m[k] = v`: overwrite the entry of `k`, or add one. -/
def GoMap.set {V : Type} : GoMap V → String → V → GoMap V
  | [], k, v => [(k, v)]
  | (k', v') :: rest, k, v =>
    if k' = k then (k', v) :: rest else (k', v') :: GoMap.set rest k v

/-- The keys of a map are pairwise distinct. -/
def GoMap.WF {V : Type} (m : GoMap V) : Prop :=
  (m.map Prod.fst).Nodup

/-- The order in which one `range` statement visits the entries of a map. -/
structure RangeOrder (V : Type) where
  order : List (String × V) → List (String × V)
  perm : ∀ l, (order l).Perm l

/-- The order that visits the entries as stored. -/
def RangeOrder.stored (V : Type) : RangeOrder V :=
  ⟨fun l => l, fun l => List.Perm.refl l⟩

/-- The order that visits the entries last to first. -/
def RangeOrder.reversed (V : Type) : RangeOrder V :=
  ⟨fun l => l.reverse, fun l => List.reverse_perm l⟩

/-! ## Data model -/

/-- ProductTypeEndpointValue of `collector_prom.go`; the field `Type` is
spelled `Typ`. -/
structure ProductTypeEndpointValue where
  Product : String
  Typ : String
  Endpoint : String
  Value : ℚ
  deriving DecidableEq

/-- One element of a `model.Vector`: a label set and a value. -/
structure Sample where
  Metric : GoMap String
  Value : ℚ
  deriving DecidableEq

/-- The `endpoint` label of a sample, `elem.Metric["endpoint"]`: the empty
string when the label is absent. -/
def Sample.endpoint (elem : Sample) : String :=
  (elem.Metric.get? "endpoint").getD ""

/-- A `model.Value` returned by a query: a vector, or a value of another
dynamic type (scalar, matrix, string). -/
inductive ModelValue where
  | vector (v : List Sample)
  | other
  deriving DecidableEq

/-- The query backend: its answer to the `n`-th query of the cycle, given the
URL and the query expression. -/
structure Backend where
  respond : Nat → String → String → Except String ModelValue

/-- The `regexp` package: `compile pattern` is `none` when the pattern is not
a valid regular expression, and otherwise the `MatchString` predicate of the
compiled pattern. -/
structure Regexp where
  compile : String → Option (String → Bool)

/-- The metric descriptors of `collector.go`. -/
inductive Desc where
  | up
  | metricSaInternal
  | metricSaType
  | metricSaOverall
  deriving DecidableEq

/-- A constant gauge sent to the channel: descriptor, value, label values. -/
structure Metric where
  desc : Desc
  value : ℚ
  labels : List String
  deriving DecidableEq

/-- Exporter of `collector.go`. -/
structure Exporter where
  promURL : String
  saInteractiveAggr : String
  saBatchAggr : String
  mapKeyType : GoMap (List String)
  mapKeyEndpoint : GoMap (List String)

/-- The choices the runtime makes during one call of `GetMetricSaInternal`:
the order of the `range` over `mapEndpointAvail`, and for each endpoint the
order of the `range` over `mapKeyEndpoint` in `FindProductsForEndpoint`. -/
structure Sched where
  avail : RangeOrder ℚ
  owners : String → RangeOrder (List String)

/-- The schedule that visits every map as stored. -/
def Sched.stored : Sched :=
  ⟨RangeOrder.stored ℚ, fun _ => RangeOrder.stored (List String)⟩

/-! ## float64 subtraction -/

/-- Rounding to the nearest integer, a tie going to the even one. -/
def roundHalfEven (m : ℚ) : ℤ :=
  if m - ⌊m⌋ < 1 / 2 then ⌊m⌋
  else if 1 / 2 < m - ⌊m⌋ then ⌊m⌋ + 1
  else if ⌊m⌋ % 2 = 0 then ⌊m⌋ else ⌊m⌋ + 1

/-- The binary exponent of the unit in the last place of a float64 of the
magnitude of `x`: 52 below the exponent of `x` (a 53-bit significand), and
-1074 in the subnormal range. -/
def ulpExponent (x : ℚ) : ℤ :=
  max (Int.log 2 |x| - 52) (-1074)

/-- Rounding of an exact result to float64, to nearest with ties to even, as
IEEE 754 arithmetic does; a result beyond the finite range, which float64
turns into an infinity, is left as rounded. -/
def roundFloat64 (x : ℚ) : ℚ :=
  roundHalfEven (x / 2 ^ ulpExponent x) * 2 ^ ulpExponent x

/-- The float64 subtraction `a - b`: the exact difference, rounded. -/
def subFloat64 (a b : ℚ) : ℚ :=
  roundFloat64 (a - b)

/-! ## `collector_prom.go` -/

/-- PromQuery of `api_prom.go`, as seen by the collector: the backend answers
and the query is recorded in the log. -/
def PromQuery (b : Backend) (log : List String) (promURL query : String) :
    Except String ModelValue × List String :=
  (b.respond log.length promURL query, log ++ [query])

/-- ReadyValue: `0.0` for a count equal to `0.0`, `1.0` otherwise. -/
def ReadyValue (valueIn : ℚ) : ℚ :=
  if valueIn = 0 then 0 else 1

/-- ZeroAlwaysWin: `0.0` as soon as a value below `1.0` is met, else `1.0`. -/
def ZeroAlwaysWin : List ℚ → String → ℚ
  | [], _ => 1
  | valueIn :: rest, kind => if valueIn < 1 then 0 else ZeroAlwaysWin rest kind

/-- ExtractValues: the values of the rows of the given product. -/
def ExtractValues (product : String) : List ProductTypeEndpointValue → List ℚ
  | [] => []
  | elem :: rest =>
    if elem.Product = product then elem.Value :: ExtractValues product rest
    else ExtractValues product rest

/-- FindProductsFromQueryResult: the set of the products of the rows. -/
def FindProductsFromQueryResult (rows : List ProductTypeEndpointValue) : GoMap Unit :=
  rows.foldl (fun set elem => set.set elem.Product ()) []

/-- BuildSaQueryEndpoints: every endpoint of the type followed by `|`. -/
def BuildSaQueryEndpoints (typeEndpoint : String) (mapKeyType : GoMap (List String)) : String :=
  ((mapKeyType.get? typeEndpoint).getD []).foldl (fun result endpoint => result ++ endpoint ++ "|") ""

/-- The loop of FindProductsForEndpoint over the entries in the order the
`range` yields them: compile the pattern (panic when invalid), return the
products of the first pattern that matches. -/
def findProductsLoop (re : Regexp) (endpointToTest : String) :
    List (String × List String) → Option (List String)
  | [] => some []
  | (endpoint, products) :: rest =>
    match re.compile endpoint with
    | none => none
    | some pattern =>
      if pattern endpointToTest then some products
      else findProductsLoop re endpointToTest rest

/-- FindProductsForEndpoint. -/
def FindProductsForEndpoint (re : Regexp) (ro : RangeOrder (List String))
    (endpointToTest : String) (mapKeyEndpoint : GoMap (List String)) : Option (List String) :=
  findProductsLoop re endpointToTest (ro.order mapKeyEndpoint)

/-- Step 1 of GetMetricSaInternal: seed the map from the total-address vector. -/
def seedAvail (vectorVal : List Sample) : GoMap ℚ :=
  vectorVal.foldl (fun m elem => m.set elem.endpoint elem.Value) []

/-- Step 2 of GetMetricSaInternal: subtract the not-ready vector row by row,
in float64, skipping the rows whose endpoint is not in the map. -/
def subtractNotReady (mapEndpointAvail : GoMap ℚ) (vectorVal : List Sample) : GoMap ℚ :=
  vectorVal.foldl
    (fun m elem =>
      match m.get? elem.endpoint with
      | none => m
      | some avail => m.set elem.endpoint (subFloat64 avail elem.Value))
    mapEndpointAvail

/-- Step 3 of GetMetricSaInternal over the entries in the order the `range`
yields them: one row per product of the endpoint. -/
def emitRows (re : Regexp) (owners : String → RangeOrder (List String))
    (typeEndpoint : String) (mapKeyEndpoint : GoMap (List String)) :
    List (String × ℚ) → List ProductTypeEndpointValue → Option (List ProductTypeEndpointValue)
  | [], result => some result
  | (endpoint, value) :: rest, result =>
    match FindProductsForEndpoint re (owners endpoint) endpoint mapKeyEndpoint with
    | none => none
    | some products =>
      emitRows re owners typeEndpoint mapKeyEndpoint rest
        (result ++ products.map
          (fun product => ⟨product, typeEndpoint, endpoint, ReadyValue value⟩))

/-- The total-address query of GetMetricSaInternal. -/
def queryAllAdressSvc (queryEndpoints : String) : String :=
  "sum by (endpoint)(kube_endpoint_address\x7bendpoint=~\"" ++ queryEndpoints ++ "\"\x7d)"

/-- The not-ready query of GetMetricSaInternal. -/
def queryNotReadyAddressSvc (queryEndpoints : String) : String :=
  "sum by (endpoint)(kube_endpoint_address\x7bendpoint=~\"" ++ queryEndpoints ++ "\",ready=\"false\"\x7d)"

/-- The type assertion `data.(model.Vector)`: panics on another dynamic type. -/
def assertVector : ModelValue → Option (List Sample)
  | .vector v => some v
  | .other => none

/-- GetMetricSaInternal: the rows of one type and the log of the queries; the
source does not use `aggr` either. -/
def GetMetricSaInternal (e : Exporter) (re : Regexp) (b : Backend) (s : Sched)
    (typeEndpoint aggr : String) (log : List String) :
    Option (List ProductTypeEndpointValue × List String) :=
  let queryEndpoints := BuildSaQueryEndpoints typeEndpoint e.mapKeyType
  let q1 := PromQuery b log e.promURL (queryAllAdressSvc queryEndpoints)
  let seeded : Option (GoMap ℚ) :=
    match q1.1 with
    | .error _ => some []
    | .ok data => (assertVector data).map seedAvail
  match seeded with
  | none => none
  | some mapEndpointAvail =>
    let q2 := PromQuery b q1.2 e.promURL (queryNotReadyAddressSvc queryEndpoints)
    let subtracted : Option (GoMap ℚ) :=
      match q2.1 with
      | .error _ => some mapEndpointAvail
      | .ok data => (assertVector data).map (subtractNotReady mapEndpointAvail)
    match subtracted with
    | none => none
    | some mapEndpointAvail =>
      (emitRows re s.owners typeEndpoint e.mapKeyEndpoint
        (s.avail.order mapEndpointAvail) []).map (fun result => (result, q2.2))

/-- The per-endpoint gauge HitProm sends for one row. -/
def internalMetric (elem : ProductTypeEndpointValue) : Metric :=
  ⟨Desc.metricSaInternal, elem.Value, [elem.Product, elem.Typ, elem.Endpoint]⟩

/-- The body of the product loop of HitProm: the interactive type gauge, the
batch type gauge and the overall gauge of one product. -/
def productMetrics (saInternalInteractive saInternalBatch : List ProductTypeEndpointValue)
    (product : String) : List Metric :=
  let saInteractiveLabel := "interactive"
  let saInteractive :=
    ZeroAlwaysWin (ExtractValues product saInternalInteractive) (product ++ " " ++ saInteractiveLabel)
  let saBatchLabel := "batch"
  let saBatch :=
    ZeroAlwaysWin (ExtractValues product saInternalBatch) (product ++ " " ++ saBatchLabel)
  let saOverall := ZeroAlwaysWin [saInteractive, saBatch] (product ++ " overall")
  [⟨Desc.metricSaType, saInteractive, [product, saInteractiveLabel]⟩,
   ⟨Desc.metricSaType, saBatch, [product, saBatchLabel]⟩,
   ⟨Desc.metricSaOverall, saOverall, [product]⟩]

/-- What HitProm sends once both row lists are known: the per-endpoint gauges
of the interactive rows, those of the batch rows, then the gauges of every
product of the batch rows, in the order the `range` over the set yields them. -/
def publish (products : RangeOrder Unit)
    (saInternalInteractive saInternalBatch : List ProductTypeEndpointValue) : List Metric :=
  saInternalInteractive.map internalMetric ++ saInternalBatch.map internalMetric ++
    (((products.order (FindProductsFromQueryResult saInternalBatch)).map
      (fun entry => productMetrics saInternalInteractive saInternalBatch entry.1)).flatten)

/-- The choices the runtime makes during one cycle. -/
structure CycleSched where
  interactive : Sched
  batch : Sched
  products : RangeOrder Unit

/-- The cycle schedule that visits every map as stored. -/
def CycleSched.stored : CycleSched :=
  ⟨Sched.stored, Sched.stored, RangeOrder.stored Unit⟩

/-- HitProm: the metrics sent to the channel and the log of the queries. -/
def HitProm (e : Exporter) (re : Regexp) (b : Backend) (cs : CycleSched) (log : List String) :
    Option (List Metric × List String) :=
  match GetMetricSaInternal e re b cs.interactive "interactive" e.saInteractiveAggr log with
  | none => none
  | some (saInternalInteractive, log1) =>
    match GetMetricSaInternal e re b cs.batch "batch" e.saBatchAggr log1 with
    | none => none
    | some (saInternalBatch, log2) =>
      some (publish cs.products saInternalInteractive saInternalBatch, log2)

/-- TestProm: the error of the liveness query, if any, and the log. -/
def TestProm (e : Exporter) (b : Backend) (log : List String) : Option String × List String :=
  let q := PromQuery b log e.promURL "up\x7bjob=\"prometheus\"\x7d"
  match q.1 with
  | .error err => (some err, q.2)
  | .ok _ => (none, q.2)

/-- CollectPromMetrics: the metrics sent to the channel and the log. -/
def CollectPromMetrics (e : Exporter) (re : Regexp) (b : Backend) (cs : CycleSched)
    (log : List String) : Option (List Metric × List String) :=
  match TestProm e b log with
  | (some _, log1) => some ([⟨Desc.up, 0, ["prometheus"]⟩], log1)
  | (none, log1) =>
    (HitProm e re b cs log1).map (fun sent => (⟨Desc.up, 1, ["prometheus"]⟩ :: sent.1, sent.2))

/-! ## `main.go` -/

/-- The record `services` of `main.go`; the field `Type` is spelled `Typ`. -/
structure services where
  Product : String
  Typ : String
  Endpoints : List String
  deriving DecidableEq

/-- The inner loop of createServicesMaps: append the product of the record to
the entry of each of its endpoints. -/
def addEndpoints (product : String) (endpoints : List String)
    (mapKeyEndpoint : GoMap (List String)) : GoMap (List String) :=
  endpoints.foldl
    (fun m endpoint => m.set endpoint ((m.get? endpoint).getD [] ++ [product]))
    mapKeyEndpoint

/-- The body of the outer loop of createServicesMaps for one record, on the
pair (mapKeyType, mapKeyEndpoint). -/
def addService (maps : GoMap (List String) × GoMap (List String)) (svc : services) :
    GoMap (List String) × GoMap (List String) :=
  (maps.1.set svc.Typ ((maps.1.get? svc.Typ).getD [] ++ svc.Endpoints),
   addEndpoints svc.Product svc.Endpoints maps.2)

/-- The function createServicesMaps: the pair (mapKeyType, mapKeyEndpoint). -/
def createServicesMaps (jsonServices : List services) :
    GoMap (List String) × GoMap (List String) :=
  jsonServices.foldl addService ([], [])

/-- What the file system and the JSON decoder hand to openServices: the file
cannot be opened, it cannot be read, or it is read and `jsonServices` holds
what `json.Unmarshal` decoded (whose error the code ignores). -/
inductive ServicesFile where
  | openFails (err : String)
  | readFails (err : String)
  | decoded (jsonServices : List services)

/-- The logging loop of openServices: the three trace lines of each record;
`Endpoints[0]` panics on a record without endpoints. -/
def traceServices : List services → Option (List String)
  | [] => some []
  | svc :: rest =>
    match svc.Endpoints with
    | [] => none
    | first :: _ =>
      (traceServices rest).map
        (fun lines =>
          ["Product: " ++ svc.Product, "Type: " ++ svc.Typ, "Endpoints: " ++ first] ++ lines)

/-- The function openServices: the nil slice when the file cannot be opened or
read, otherwise the decoded records once the logging loop is through. -/
def openServices (file : ServicesFile) : Option (List services) :=
  match file with
  | .openFails _ => some []
  | .readFails _ => some []
  | .decoded jsonServices => (traceServices jsonServices).map (fun _ => jsonServices)

/-! ## Vocabulary of the statements -/

/-- The rational `x` is a finite float64 value. -/
def IsFloat64 (x : ℚ) : Prop :=
  roundFloat64 x = x ∧ |x| < 2 ^ 1024

instance IsFloat64.decidable (x : ℚ) : Decidable (IsFloat64 x) := by
  unfold IsFloat64
  infer_instance

/-- Subtracting the values one at a time from `total`, every exact difference
`total - v₁`, `total - v₁ - v₂`, ... is a finite float64 value, so that no
subtraction rounds. -/
def ExactDifferences : ℚ → List ℚ → Prop
  | _, [] => True
  | total, v :: rest => IsFloat64 (total - v) ∧ ExactDifferences (total - v) rest

instance ExactDifferences.decidable : (total : ℚ) → (values : List ℚ) →
    Decidable (ExactDifferences total values)
  | _, [] => isTrue trivial
  | total, v :: rest =>
    @instDecidableAnd _ _ (IsFloat64.decidable (total - v))
      (ExactDifferences.decidable (total - v) rest)

/-- Every pattern of the ownership map is a valid regular expression. -/
def ValidPatterns (re : Regexp) (mapKeyEndpoint : GoMap (List String)) : Prop :=
  ∀ entry ∈ mapKeyEndpoint, (re.compile entry.1).isSome = true

/-- The pattern of an entry is valid and matches the endpoint. -/
def Matches (re : Regexp) (endpointToTest : String) (entry : String × List String) : Prop :=
  ∃ pattern, re.compile entry.1 = some pattern ∧ pattern endpointToTest = true

/-- The map `mapEndpointAvail` at the start of step 3 when the total-address
query returned `total` and the not-ready query returned a vector or failed. -/
def availableCounts (total : List Sample) : Except String (List Sample) → GoMap ℚ
  | .error _ => seedAvail total
  | .ok notReady => subtractNotReady (seedAvail total) notReady

/-! ## Test fixtures -/

/-- An instance of the `regexp` package that treats every pattern as a
sequence of literal characters: the pattern matches the strings that contain
it, as `MatchString` does for a pattern of letters and digits. -/
def literalRegexp : Regexp :=
  ⟨fun pattern => some (fun s => s.data.tails.any (fun t => pattern.data.isPrefixOf t))⟩

/-- A sample whose only label is `endpoint`. -/
def sampleOf (endpoint : String) (value : ℚ) : Sample :=
  ⟨[("endpoint", endpoint)], value⟩

/-- A backend that answers the `n`-th query of the cycle with the `n`-th
entry of a script, and fails once the script is over. -/
def scriptedBackend (script : List (Except String ModelValue)) : Backend :=
  ⟨fun n _ _ => script.getD n (.error "connection refused")⟩

/-- The exporter of the end-to-end scenario: type index
`interactive: [Wheel]`, `batch: [Motor, Axle]`, every endpoint owned by `Car`. -/
def carExporter : Exporter :=
  ⟨"http://prometheus:9090", "1m", "5m",
   [("interactive", ["Wheel"]), ("batch", ["Motor", "Axle"])],
   [("Wheel", ["Car"]), ("Motor", ["Car"]), ("Axle", ["Car"])]⟩

/-- An exporter with one interactive endpoint owned by `Bike` and one batch
endpoint owned by `Car`. -/
def bikeExporter : Exporter :=
  ⟨"http://prometheus:9090", "1m", "5m",
   [("interactive", ["Pedal"]), ("batch", ["Motor"])],
   [("Pedal", ["Bike"]), ("Motor", ["Car"])]⟩

/-- The backend of a cycle of `bikeExporter` after the liveness query: `Pedal`
has 1 address, `Motor` has 2, both of them not ready. -/
def bikeBackend : Backend :=
  scriptedBackend
    [.ok (.vector [sampleOf "Pedal" 1]), .ok (.vector []),
     .ok (.vector [sampleOf "Motor" 2]), .ok (.vector [sampleOf "Motor" 2])]

/-- The queries `bikeExporter` issues for the interactive type. -/
def bikeLog1 : List String :=
  ["sum by (endpoint)(kube_endpoint_address\x7bendpoint=~\"Pedal|\"\x7d)",
   "sum by (endpoint)(kube_endpoint_address\x7bendpoint=~\"Pedal|\",ready=\"false\"\x7d)"]

/-- The queries `bikeExporter` issues for both types. -/
def bikeLog2 : List String :=
  bikeLog1 ++
  ["sum by (endpoint)(kube_endpoint_address\x7bendpoint=~\"Motor|\"\x7d)",
   "sum by (endpoint)(kube_endpoint_address\x7bendpoint=~\"Motor|\",ready=\"false\"\x7d)"]

/-- An instance of the `regexp` package for patterns made of literal
characters and `(`: a pattern with an opening parenthesis does not compile (in
the package: missing closing parenthesis), any other pattern matches the
strings that contain it. -/
def groupRegexp : Regexp :=
  ⟨fun pattern =>
    if pattern.data.any (fun c => c = '(') then none
    else some (fun s => s.data.tails.any (fun t => pattern.data.isPrefixOf t))⟩

/-- Three service records: `endpoint1` is listed twice by `Product1`, and
`endpoint2` is listed by `Product1` and by `Product3`. -/
def testServices : List services :=
  [⟨"Product1", "interactive", ["endpoint1", "endpoint2", "endpoint1"]⟩,
   ⟨"Product2", "batch", ["endpoint3"]⟩,
   ⟨"Product3", "interactive", ["endpoint2"]⟩]

/-- The upstream of the end-to-end scenario: totals `Wheel: 2`, `Motor: 1`,
`Axle: 0`, not-ready counts `Wheel: 0`, `Motor: 0`. It answers each query of
the cycle with the rows of the endpoints that the expression of the query
names, and the liveness query with one sample. -/
def carBackend : Backend :=
  ⟨fun _ _ query =>
    if query = queryAllAdressSvc "Wheel|" then
      .ok (.vector [sampleOf "Wheel" 2])
    else if query = queryNotReadyAddressSvc "Wheel|" then
      .ok (.vector [sampleOf "Wheel" 0])
    else if query = queryAllAdressSvc "Motor|Axle|" then
      .ok (.vector [sampleOf "Motor" 1, sampleOf "Axle" 0])
    else if query = queryNotReadyAddressSvc "Motor|Axle|" then
      .ok (.vector [sampleOf "Motor" 0])
    else if query = "up\x7bjob=\"prometheus\"\x7d" then
      .ok (.vector [⟨[("job", "prometheus")], 1⟩])
    else .error "bad_data"⟩

/-! ## Theorems -/

/-! ### float64 subtraction -/

theorem roundHalfEven_intCast (k : ℤ) : roundHalfEven (k : ℚ) = k := by
  unfold roundHalfEven
  simp

theorem roundFloat64_of_int_mul (x : ℚ) (k : ℤ) (h : x = k * 2 ^ ulpExponent x) :
    roundFloat64 x = x := by
  have hpos : (2 : ℚ) ^ ulpExponent x ≠ 0 := zpow_ne_zero _ (by norm_num)
  have hdiv : x / 2 ^ ulpExponent x = (k : ℚ) := by
    rw [div_eq_iff hpos]
    exact h
  unfold roundFloat64
  rw [hdiv, roundHalfEven_intCast]
  exact h.symm

theorem roundFloat64_zero : roundFloat64 0 = 0 :=
  roundFloat64_of_int_mul 0 0 (by simp)

theorem ulpExponent_intCast_nonpos (n : ℤ) (h : |n| < 2 ^ 53) : ulpExponent (n : ℚ) ≤ 0 := by
  unfold ulpExponent
  apply max_le _ (by norm_num)
  by_cases hn : n = 0
  · subst hn
    simp [Int.log_zero_right]
  · have hpos : (0 : ℚ) < |(n : ℚ)| := abs_pos.mpr (by exact_mod_cast hn)
    have hlt : |(n : ℚ)| < ((2 : ℕ) : ℚ) ^ (53 : ℤ) := by
      have h1 : ((|n| : ℤ) : ℚ) < ((2 ^ 53 : ℤ) : ℚ) := by exact_mod_cast h
      rw [Int.cast_abs] at h1
      have h2 : ((2 : ℕ) : ℚ) ^ (53 : ℤ) = ((2 ^ 53 : ℤ) : ℚ) := by norm_num
      rw [h2]
      exact h1
    have hlog := (Int.lt_zpow_iff_log_lt (by norm_num : 1 < 2) hpos).mp hlt
    omega

theorem roundFloat64_intCast (n : ℤ) (h : |n| < 2 ^ 53) : roundFloat64 (n : ℚ) = n := by
  have hq := ulpExponent_intCast_nonpos n h
  apply roundFloat64_of_int_mul (n : ℚ) (n * 2 ^ (-ulpExponent (n : ℚ)).toNat)
  have hnat : (((-ulpExponent (n : ℚ)).toNat : ℤ)) = -ulpExponent (n : ℚ) :=
    Int.toNat_of_nonneg (by omega)
  have hpow : ((2 : ℚ) ^ (-ulpExponent (n : ℚ)).toNat) = (2 : ℚ) ^ (-ulpExponent (n : ℚ)) := by
    rw [← zpow_natCast, hnat]
  push_cast
  rw [hpow, mul_assoc, ← zpow_add₀ (by norm_num : (2 : ℚ) ≠ 0)]
  simp

theorem isFloat64_intCast (n : ℤ) (h : |n| < 2 ^ 53) : IsFloat64 (n : ℚ) := by
  refine ⟨roundFloat64_intCast n h, ?_⟩
  have h1 : ((|n| : ℤ) : ℚ) < ((2 ^ 53 : ℤ) : ℚ) := by exact_mod_cast h
  rw [Int.cast_abs] at h1
  calc |(n : ℚ)| < ((2 ^ 53 : ℤ) : ℚ) := h1
    _ ≤ 2 ^ 1024 := by norm_num

theorem subFloat64_intCast (a b : ℤ) (h : |a - b| < 2 ^ 53) :
    subFloat64 (a : ℚ) (b : ℚ) = ((a - b : ℤ) : ℚ) := by
  unfold subFloat64
  rw [← Int.cast_sub]
  exact roundFloat64_intCast (a - b) h

theorem subFloat64_self (a : ℚ) : subFloat64 a a = 0 := by
  unfold subFloat64
  rw [sub_self]
  exact roundFloat64_zero

theorem subFloat64_two_zero : subFloat64 2 0 = 2 := by
  have h := subFloat64_intCast 2 0 (by norm_num)
  simpa using h

theorem subFloat64_one_zero : subFloat64 1 0 = 1 := by
  have h := subFloat64_intCast 1 0 (by norm_num)
  simpa using h

theorem subFloat64_three_one : subFloat64 3 1 = 2 := by
  have h := subFloat64_intCast 3 1 (by norm_num)
  simpa using h

/-- Counts that are natural numbers below 2^53, the not-ready ones summing to
at most the total, are subtracted without rounding. -/
theorem exactDifferences_of_nat (total : ℕ) (values : List ℕ) (htotal : total < 2 ^ 53)
    (hsum : values.sum ≤ total) :
    ExactDifferences (total : ℚ) (values.map (fun v => (v : ℚ))) := by
  induction values generalizing total with
  | nil => trivial
  | cons v rest ih =>
    simp only [List.sum_cons] at hsum
    have hv : v ≤ total := by omega
    have hcast : (total : ℚ) - (v : ℚ) = ((total - v : ℕ) : ℚ) := by
      rw [Nat.cast_sub hv]
    simp only [List.map_cons, ExactDifferences]
    rw [hcast]
    refine ⟨?_, ih (total - v) (by omega) (by omega)⟩
    have h := isFloat64_intCast ((total - v : ℕ) : ℤ) (by
      rw [abs_of_nonneg (by positivity)]
      have : total - v < 2 ^ 53 := by omega
      exact_mod_cast this)
    simpa using h

/-! ### Go maps -/

theorem GoMap.get?_set {V : Type} (m : GoMap V) (k : String) (v : V) (k' : String) :
    (m.set k v).get? k' = if k' = k then some v else m.get? k' := by
  induction m with
  | nil =>
    by_cases h : k = k'
    · simp [GoMap.set, GoMap.get?, h]
    · have h' : ¬ k' = k := fun hh => h hh.symm
      simp [GoMap.set, GoMap.get?, h, h']
  | cons kv rest ih =>
    obtain ⟨k0, v0⟩ := kv
    by_cases h0 : k0 = k
    · subst h0
      by_cases h : k0 = k'
      · simp [GoMap.set, GoMap.get?, h]
      · have h' : ¬ k' = k0 := fun hh => h hh.symm
        simp [GoMap.set, GoMap.get?, h, h']
    · by_cases h1 : k0 = k'
      · subst h1
        simp [GoMap.set, GoMap.get?, h0]
      · simp [GoMap.set, GoMap.get?, h0, h1, ih]

theorem GoMap.keys_set {V : Type} (m : GoMap V) (k : String) (v : V) :
    (m.set k v).map Prod.fst =
      if k ∈ m.map Prod.fst then m.map Prod.fst else m.map Prod.fst ++ [k] := by
  induction m with
  | nil => simp [GoMap.set]
  | cons kv rest ih =>
    obtain ⟨k0, v0⟩ := kv
    by_cases h0 : k0 = k
    · simp [GoMap.set, h0]
    · have h0' : ¬ k = k0 := fun hh => h0 hh.symm
      by_cases hk : k ∈ rest.map Prod.fst
      · rw [if_pos hk] at ih
        have hk' : k ∈ ((k0, v0) :: rest).map Prod.fst := by
          simp only [List.map_cons, List.mem_cons]; exact Or.inr hk
        rw [if_pos hk']
        simp [GoMap.set, h0, ih]
      · rw [if_neg hk] at ih
        have hk' : ¬ k ∈ ((k0, v0) :: rest).map Prod.fst := by
          simp only [List.map_cons, List.mem_cons, not_or]; exact ⟨h0', hk⟩
        rw [if_neg hk']
        simp [GoMap.set, h0, ih]

theorem GoMap.get?_eq_none_iff {V : Type} (m : GoMap V) (k : String) :
    m.get? k = none ↔ k ∉ m.map Prod.fst := by
  induction m with
  | nil => simp [GoMap.get?]
  | cons kv rest ih =>
    obtain ⟨k0, v0⟩ := kv
    by_cases h : k0 = k
    · simp [GoMap.get?, h]
    · have h' : ¬ k = k0 := fun hh => h hh.symm
      simp only [GoMap.get?, h, if_false, ih, List.map_cons, List.mem_cons, not_or]
      exact ⟨fun hh => ⟨h', hh⟩, fun hh => hh.2⟩

theorem GoMap.WF_set {V : Type} (m : GoMap V) (k : String) (v : V) (h : m.WF) :
    (m.set k v).WF := by
  unfold GoMap.WF at *
  rw [GoMap.keys_set]
  by_cases hk : k ∈ m.map Prod.fst
  · rw [if_pos hk]; exact h
  · rw [if_neg hk]
    exact List.Nodup.append h (List.nodup_singleton k)
      (by
        intro a ha hb
        simp only [List.mem_singleton] at hb
        exact hk (hb ▸ ha))

theorem GoMap.get?_of_mem {V : Type} (m : GoMap V) (h : m.WF) (k : String) (v : V)
    (hmem : (k, v) ∈ m) : m.get? k = some v := by
  induction m with
  | nil => simp at hmem
  | cons kv rest ih =>
    obtain ⟨k0, v0⟩ := kv
    unfold GoMap.WF at h ih
    simp only [List.map_cons, List.nodup_cons] at h
    rcases List.mem_cons.mp hmem with heq | hin
    · cases heq
      simp [GoMap.get?]
    · have hne : ¬ k0 = k := by
        intro hk
        apply h.1
        rw [hk]
        exact List.mem_map.mpr ⟨(k, v), hin, rfl⟩
      simp [GoMap.get?, hne, ih h.2 hin]

theorem GoMap.mem_of_get? {V : Type} (m : GoMap V) (k : String) (v : V)
    (h : m.get? k = some v) : (k, v) ∈ m := by
  induction m with
  | nil => simp [GoMap.get?] at h
  | cons kv rest ih =>
    obtain ⟨k0, v0⟩ := kv
    by_cases hk : k0 = k
    · subst hk
      simp [GoMap.get?] at h
      simp [h]
    · simp [GoMap.get?, hk] at h
      exact List.mem_cons_of_mem _ (ih h)

/-! ### Steps 1 and 2 of GetMetricSaInternal -/

theorem seed_keys (vectorVal : List Sample) (m0 : GoMap ℚ) (k : String) :
    k ∈ (vectorVal.foldl (fun m elem => m.set elem.endpoint elem.Value) m0).map Prod.fst ↔
      k ∈ m0.map Prod.fst ∨ k ∈ vectorVal.map Sample.endpoint := by
  induction vectorVal generalizing m0 with
  | nil => simp
  | cons x rest ih =>
    rw [List.foldl_cons, ih, GoMap.keys_set]
    by_cases hx : x.endpoint ∈ m0.map Prod.fst
    · rw [if_pos hx]
      constructor
      · rintro (h | h)
        · exact Or.inl h
        · exact Or.inr (by simp only [List.map_cons]; exact List.mem_cons_of_mem _ h)
      · rintro (h | h)
        · exact Or.inl h
        · simp only [List.map_cons, List.mem_cons] at h
          rcases h with h | h
          · exact Or.inl (h ▸ hx)
          · exact Or.inr h
    · rw [if_neg hx]
      simp only [List.mem_append, List.mem_singleton, List.map_cons, List.mem_cons]
      tauto

theorem seed_WF (vectorVal : List Sample) (m0 : GoMap ℚ) (h : m0.WF) :
    (vectorVal.foldl (fun m elem => m.set elem.endpoint elem.Value) m0).WF := by
  induction vectorVal generalizing m0 with
  | nil => exact h
  | cons x rest ih =>
    rw [List.foldl_cons]
    exact ih _ (GoMap.WF_set m0 _ _ h)

theorem seed_get?_of_not_mem (vectorVal : List Sample) (m0 : GoMap ℚ) (k : String)
    (hk : k ∉ vectorVal.map Sample.endpoint) :
    (vectorVal.foldl (fun m elem => m.set elem.endpoint elem.Value) m0).get? k = m0.get? k := by
  induction vectorVal generalizing m0 with
  | nil => rfl
  | cons x rest ih =>
    simp only [List.map_cons, List.mem_cons, not_or] at hk
    rw [List.foldl_cons, ih _ hk.2, GoMap.get?_set, if_neg hk.1]

theorem seed_get? (vectorVal : List Sample) (m0 : GoMap ℚ) (elem : Sample)
    (hnodup : (vectorVal.map Sample.endpoint).Nodup) (hmem : elem ∈ vectorVal) :
    (vectorVal.foldl (fun m elem => m.set elem.endpoint elem.Value) m0).get? elem.endpoint =
      some elem.Value := by
  induction vectorVal generalizing m0 with
  | nil => simp at hmem
  | cons x rest ih =>
    simp only [List.map_cons, List.nodup_cons] at hnodup
    rw [List.foldl_cons]
    rcases List.mem_cons.mp hmem with heq | hin
    · subst heq
      rw [seed_get?_of_not_mem rest _ _ hnodup.1, GoMap.get?_set, if_pos rfl]
    · exact ih _ hnodup.2 hin

theorem seedAvail_WF (vectorVal : List Sample) : (seedAvail vectorVal).WF :=
  seed_WF vectorVal [] List.nodup_nil

theorem seedAvail_keys (vectorVal : List Sample) (k : String) :
    k ∈ (seedAvail vectorVal).map Prod.fst ↔ k ∈ vectorVal.map Sample.endpoint := by
  unfold seedAvail
  rw [seed_keys]
  simp

theorem seedAvail_get? (vectorVal : List Sample) (elem : Sample)
    (hnodup : (vectorVal.map Sample.endpoint).Nodup) (hmem : elem ∈ vectorVal) :
    (seedAvail vectorVal).get? elem.endpoint = some elem.Value :=
  seed_get? vectorVal [] elem hnodup hmem

theorem subtractNotReady_keys (m : GoMap ℚ) (vectorVal : List Sample) :
    (subtractNotReady m vectorVal).map Prod.fst = m.map Prod.fst := by
  unfold subtractNotReady
  induction vectorVal generalizing m with
  | nil => rfl
  | cons x rest ih =>
    rw [List.foldl_cons]
    cases hx : m.get? x.endpoint with
    | none => simpa using ih m
    | some avail =>
      simp only
      rw [ih, GoMap.keys_set]
      have hin : x.endpoint ∈ m.map Prod.fst := by
        by_contra hnot
        rw [(GoMap.get?_eq_none_iff m x.endpoint).mpr hnot] at hx
        cases hx
      rw [if_pos hin]

theorem subtractNotReady_WF (m : GoMap ℚ) (vectorVal : List Sample) (h : m.WF) :
    (subtractNotReady m vectorVal).WF := by
  unfold GoMap.WF at *
  rw [subtractNotReady_keys]
  exact h

theorem GoMap.get?_perm {V : Type} (l m : GoMap V) (hperm : l.Perm m) (hm : m.WF)
    (k : String) : l.get? k = m.get? k := by
  have hl : l.WF := by
    unfold GoMap.WF at *
    exact ((hperm.map Prod.fst).nodup_iff).mpr hm
  cases h : m.get? k with
  | none =>
    rw [GoMap.get?_eq_none_iff] at h ⊢
    intro hin
    exact h ((hperm.map Prod.fst).mem_iff.mp hin)
  | some v =>
    exact GoMap.get?_of_mem l hl k v (hperm.mem_iff.mpr (GoMap.mem_of_get? m k v h))

theorem findProductsLoop_isSome (re : Regexp) (endpointToTest : String)
    (l : List (String × List String))
    (h : ∀ entry ∈ l, (re.compile entry.1).isSome = true) :
    ∃ products, findProductsLoop re endpointToTest l = some products := by
  induction l with
  | nil => exact ⟨[], rfl⟩
  | cons entry rest ih =>
    obtain ⟨endpoint, products⟩ := entry
    have hc := h (endpoint, products) (List.mem_cons_self _ _)
    obtain ⟨pattern, hp⟩ := Option.isSome_iff_exists.mp hc
    simp only at hp
    by_cases hm : pattern endpointToTest = true
    · exact ⟨products, by simp [findProductsLoop, hp, hm]⟩
    · obtain ⟨ps, hps⟩ := ih (fun x hx => h x (List.mem_cons_of_mem _ hx))
      exact ⟨ps, by simp [findProductsLoop, hp, hm, hps]⟩

theorem FindProductsForEndpoint_isSome (re : Regexp) (ro : RangeOrder (List String))
    (endpointToTest : String) (mapKeyEndpoint : GoMap (List String))
    (h : ValidPatterns re mapKeyEndpoint) :
    ∃ products, FindProductsForEndpoint re ro endpointToTest mapKeyEndpoint = some products :=
  findProductsLoop_isSome re endpointToTest _
    (fun entry hentry => h entry ((ro.perm mapKeyEndpoint).mem_iff.mp hentry))

theorem emitRows_eq (re : Regexp) (owners : String → RangeOrder (List String))
    (typeEndpoint : String) (mapKeyEndpoint : GoMap (List String))
    (prods : String → List String) (l : List (String × ℚ))
    (result : List ProductTypeEndpointValue)
    (h : ∀ kv ∈ l,
      FindProductsForEndpoint re (owners kv.1) kv.1 mapKeyEndpoint = some (prods kv.1)) :
    emitRows re owners typeEndpoint mapKeyEndpoint l result =
      some (result ++ (l.map (fun kv => (prods kv.1).map
        (fun product => (⟨product, typeEndpoint, kv.1, ReadyValue kv.2⟩ :
          ProductTypeEndpointValue)))).flatten) := by
  induction l generalizing result with
  | nil => simp [emitRows]
  | cons kv rest ih =>
    obtain ⟨endpoint, value⟩ := kv
    have h0 := h (endpoint, value) (List.mem_cons_self _ _)
    simp only at h0
    simp only [emitRows, h0]
    rw [ih _ (fun x hx => h x (List.mem_cons_of_mem _ hx))]
    simp [List.append_assoc]

theorem emitRows_mem (re : Regexp) (owners : String → RangeOrder (List String))
    (typeEndpoint : String) (mapKeyEndpoint : GoMap (List String))
    (l : List (String × ℚ)) (result rows : List ProductTypeEndpointValue)
    (h : emitRows re owners typeEndpoint mapKeyEndpoint l result = some rows)
    (r : ProductTypeEndpointValue) (hr : r ∈ rows) :
    r ∈ result ∨ ∃ kv ∈ l, r.Endpoint = kv.1 ∧ r.Value = ReadyValue kv.2 ∧
      r.Typ = typeEndpoint := by
  induction l generalizing result with
  | nil =>
    simp only [emitRows, Option.some.injEq] at h
    exact Or.inl (h ▸ hr)
  | cons kv rest ih =>
    obtain ⟨endpoint, value⟩ := kv
    cases hf : FindProductsForEndpoint re (owners endpoint) endpoint mapKeyEndpoint with
    | none => simp [emitRows, hf] at h
    | some products =>
      simp only [emitRows, hf] at h
      rcases ih _ h with hin | ⟨kv, hkv, hprop⟩
      · rcases List.mem_append.mp hin with h1 | h2
        · exact Or.inl h1
        · obtain ⟨p, _, hp⟩ := List.mem_map.mp h2
          exact Or.inr ⟨(endpoint, value), List.mem_cons_self _ _, by rw [← hp], by rw [← hp],
            by rw [← hp]⟩
      · exact Or.inr ⟨kv, List.mem_cons_of_mem _ hkv, hprop⟩

theorem filter_rows_of_entries (g : String × ℚ → List ProductTypeEndpointValue)
    (hg : ∀ kv, ∀ r ∈ g kv, r.Endpoint = kv.1) (l : GoMap ℚ) (hl : l.WF) (endpoint : String) :
    ((l.map g).flatten).filter (fun r => r.Endpoint = endpoint) =
      match l.get? endpoint with
      | none => []
      | some value => g (endpoint, value) := by
  induction l with
  | nil => simp [GoMap.get?]
  | cons kv rest ih =>
    obtain ⟨k0, v0⟩ := kv
    unfold GoMap.WF at hl ih
    simp only [List.map_cons, List.nodup_cons] at hl
    simp only [List.map_cons, List.flatten_cons, List.filter_append]
    by_cases hk : k0 = endpoint
    · subst hk
      have hnone : GoMap.get? rest k0 = none := (GoMap.get?_eq_none_iff rest k0).mpr hl.1
      rw [ih hl.2, hnone]
      have hall : (g (k0, v0)).filter (fun r => r.Endpoint = k0) = g (k0, v0) := by
        rw [List.filter_eq_self]
        intro r hr
        simpa using hg _ r hr
      simp [GoMap.get?, hall]
    · have hnil : (g (k0, v0)).filter (fun r => r.Endpoint = endpoint) = [] := by
        rw [List.filter_eq_nil_iff]
        intro r hr
        have := hg _ r hr
        simp only at this
        simp [this, hk]
      rw [hnil, ih hl.2]
      simp [GoMap.get?, hk]

/-! ### GetMetricSaInternal -/

theorem availableCounts_WF (total : List Sample) (notReady : Except String (List Sample)) :
    (availableCounts total notReady).WF := by
  cases notReady with
  | error err => exact seedAvail_WF total
  | ok nr => exact subtractNotReady_WF _ nr (seedAvail_WF total)

theorem availableCounts_keys (total : List Sample) (notReady : Except String (List Sample))
    (k : String) :
    k ∈ (availableCounts total notReady).map Prod.fst ↔ k ∈ total.map Sample.endpoint := by
  cases notReady with
  | error err => exact seedAvail_keys total k
  | ok nr =>
    simp only [availableCounts]
    rw [subtractNotReady_keys]
    exact seedAvail_keys total k

theorem GetMetricSaInternal_eq (e : Exporter) (re : Regexp) (b : Backend) (s : Sched)
    (typeEndpoint aggr : String) (log : List String) (total : List Sample)
    (notReady : Except String (List Sample))
    (h1 : b.respond log.length e.promURL
      (queryAllAdressSvc (BuildSaQueryEndpoints typeEndpoint e.mapKeyType)) =
        .ok (.vector total))
    (h2 : b.respond (log.length + 1) e.promURL
      (queryNotReadyAddressSvc (BuildSaQueryEndpoints typeEndpoint e.mapKeyType)) =
        notReady.map ModelValue.vector) :
    GetMetricSaInternal e re b s typeEndpoint aggr log =
      (emitRows re s.owners typeEndpoint e.mapKeyEndpoint
        (s.avail.order (availableCounts total notReady)) []).map
        (fun result => (result,
          log ++ [queryAllAdressSvc (BuildSaQueryEndpoints typeEndpoint e.mapKeyType)] ++
            [queryNotReadyAddressSvc (BuildSaQueryEndpoints typeEndpoint e.mapKeyType)])) := by
  cases notReady with
  | error err =>
    simp only [Except.map] at h2
    simp [GetMetricSaInternal, PromQuery, h1, h2, assertVector, availableCounts]
  | ok nr =>
    simp only [Except.map] at h2
    simp [GetMetricSaInternal, PromQuery, h1, h2, assertVector, availableCounts]

/-- When the total-address query succeeds and FindProductsForEndpoint returns
for every endpoint of its result, GetMetricSaInternal returns, and the rows of
each endpoint are those of its count and products. -/
theorem GetMetricSaInternal_filter (e : Exporter) (re : Regexp) (b : Backend) (s : Sched)
    (typeEndpoint aggr : String) (log : List String) (total : List Sample)
    (notReady : Except String (List Sample))
    (hresolves : ∀ endpoint ∈ total.map Sample.endpoint, ∃ products,
      FindProductsForEndpoint re (s.owners endpoint) endpoint e.mapKeyEndpoint = some products)
    (h1 : b.respond log.length e.promURL
      (queryAllAdressSvc (BuildSaQueryEndpoints typeEndpoint e.mapKeyType)) =
        .ok (.vector total))
    (h2 : b.respond (log.length + 1) e.promURL
      (queryNotReadyAddressSvc (BuildSaQueryEndpoints typeEndpoint e.mapKeyType)) =
        notReady.map ModelValue.vector) :
    ∃ rows log', GetMetricSaInternal e re b s typeEndpoint aggr log = some (rows, log') ∧
      ∀ endpoint, rows.filter (fun r => r.Endpoint = endpoint) =
        match (availableCounts total notReady).get? endpoint with
        | none => []
        | some count =>
          ((FindProductsForEndpoint re (s.owners endpoint) endpoint e.mapKeyEndpoint).getD []).map
            (fun product => (⟨product, typeEndpoint, endpoint, ReadyValue count⟩ :
              ProductTypeEndpointValue)) := by
  rw [GetMetricSaInternal_eq e re b s typeEndpoint aggr log total notReady h1 h2]
  have hperm := s.avail.perm (availableCounts total notReady)
  have hwf := availableCounts_WF total notReady
  have hwfl : GoMap.WF (s.avail.order (availableCounts total notReady)) := by
    unfold GoMap.WF at *
    exact ((hperm.map Prod.fst).nodup_iff).mpr hwf
  rw [emitRows_eq re s.owners typeEndpoint e.mapKeyEndpoint
    (fun endpoint =>
      (FindProductsForEndpoint re (s.owners endpoint) endpoint e.mapKeyEndpoint).getD [])
    _ []
    (by
      intro kv hkv
      have hkey : kv.1 ∈ (availableCounts total notReady).map Prod.fst :=
        List.mem_map.mpr ⟨kv, hperm.mem_iff.mp hkv, rfl⟩
      obtain ⟨ps, hps⟩ :=
        hresolves kv.1 ((availableCounts_keys total notReady kv.1).mp hkey)
      simp [hps])]
  refine ⟨_, _, rfl, ?_⟩
  intro endpoint
  rw [List.nil_append]
  rw [filter_rows_of_entries _ (fun kv r hr => by
    obtain ⟨p, _, hp⟩ := List.mem_map.mp hr
    rw [← hp]) _ hwfl endpoint]
  rw [GoMap.get?_perm _ _ hperm hwf endpoint]

/-! ### The product loop of HitProm -/

theorem productSet_keys (rows : List ProductTypeEndpointValue) (m0 : GoMap Unit) (k : String) :
    k ∈ (rows.foldl (fun set elem => set.set elem.Product ()) m0).map Prod.fst ↔
      k ∈ m0.map Prod.fst ∨ k ∈ rows.map ProductTypeEndpointValue.Product := by
  induction rows generalizing m0 with
  | nil => simp
  | cons x rest ih =>
    rw [List.foldl_cons, ih, GoMap.keys_set]
    by_cases hx : x.Product ∈ m0.map Prod.fst
    · rw [if_pos hx]
      constructor
      · rintro (h | h)
        · exact Or.inl h
        · exact Or.inr (by simp only [List.map_cons]; exact List.mem_cons_of_mem _ h)
      · rintro (h | h)
        · exact Or.inl h
        · simp only [List.map_cons, List.mem_cons] at h
          rcases h with h | h
          · exact Or.inl (h ▸ hx)
          · exact Or.inr h
    · rw [if_neg hx]
      simp only [List.mem_append, List.mem_singleton, List.map_cons, List.mem_cons]
      tauto

theorem productSet_WF (rows : List ProductTypeEndpointValue) (m0 : GoMap Unit) (h : m0.WF) :
    (rows.foldl (fun set elem => set.set elem.Product ()) m0).WF := by
  induction rows generalizing m0 with
  | nil => exact h
  | cons x rest ih =>
    rw [List.foldl_cons]
    exact ih _ (GoMap.WF_set m0 _ _ h)

theorem FindProductsFromQueryResult_WF (rows : List ProductTypeEndpointValue) :
    (FindProductsFromQueryResult rows).WF :=
  productSet_WF rows [] List.nodup_nil

theorem FindProductsFromQueryResult_keys (rows : List ProductTypeEndpointValue) (k : String) :
    k ∈ (FindProductsFromQueryResult rows).map Prod.fst ↔
      k ∈ rows.map ProductTypeEndpointValue.Product := by
  unfold FindProductsFromQueryResult
  rw [productSet_keys]
  simp

theorem ExtractValues_eq_filter_map (product : String) (rows : List ProductTypeEndpointValue) :
    ExtractValues product rows =
      (rows.filter (fun elem => elem.Product = product)).map ProductTypeEndpointValue.Value := by
  induction rows with
  | nil => rfl
  | cons x rest ih =>
    by_cases h : x.Product = product
    · simp [ExtractValues, h, ih]
    · simp [ExtractValues, h, ih]

theorem filter_flatten_of_unique {α β : Type} (f : α → List β) (pred : β → Bool)
    (l : List α) (a : α) (ha : a ∈ l) (hnodup : l.Nodup)
    (hother : ∀ x ∈ l, x ≠ a → (f x).filter pred = []) :
    ((l.map f).flatten).filter pred = (f a).filter pred := by
  induction l with
  | nil => simp at ha
  | cons x rest ih =>
    simp only [List.nodup_cons] at hnodup
    simp only [List.map_cons, List.flatten_cons, List.filter_append]
    rcases List.mem_cons.mp ha with heq | hin
    · subst heq
      have hrest : ((rest.map f).flatten).filter pred = [] := by
        rw [List.filter_eq_nil_iff]
        intro y hy
        obtain ⟨ys, hys, hyin⟩ := List.mem_flatten.mp hy
        obtain ⟨x, hx, hfx⟩ := List.mem_map.mp hys
        have hne : x ≠ a := fun hh => hnodup.1 (hh ▸ hx)
        have hnil := hother x (List.mem_cons_of_mem _ hx) hne
        rw [List.filter_eq_nil_iff] at hnil
        exact hnil y (hfx ▸ hyin)
      rw [hrest, List.append_nil]
    · have hne : x ≠ a := fun hh => hnodup.1 (hh ▸ hin)
      rw [hother x (List.mem_cons_self _ _) hne, List.nil_append]
      exact ih hin hnodup.2 (fun y hy => hother y (List.mem_cons_of_mem _ hy))

theorem mem_publish (products : RangeOrder Unit)
    (saInternalInteractive saInternalBatch : List ProductTypeEndpointValue) (m : Metric) :
    m ∈ publish products saInternalInteractive saInternalBatch ↔
      m ∈ saInternalInteractive.map internalMetric ∨ m ∈ saInternalBatch.map internalMetric ∨
      ∃ product ∈ saInternalBatch.map ProductTypeEndpointValue.Product,
        m ∈ productMetrics saInternalInteractive saInternalBatch product := by
  unfold publish
  simp only [List.mem_append, List.mem_flatten, List.mem_map, or_assoc]
  constructor
  · rintro (h | h | ⟨l, ⟨entry, hentry, hl⟩, hm⟩)
    · exact Or.inl h
    · exact Or.inr (Or.inl h)
    · refine Or.inr (Or.inr ⟨entry.1, ?_, hl ▸ hm⟩)
      have hk : entry.1 ∈ (FindProductsFromQueryResult saInternalBatch).map Prod.fst :=
        List.mem_map.mpr ⟨entry, (products.perm _).mem_iff.mp hentry, rfl⟩
      exact List.mem_map.mp ((FindProductsFromQueryResult_keys _ _).mp hk)
  · rintro (h | h | ⟨product, hproduct, hm⟩)
    · exact Or.inl h
    · exact Or.inr (Or.inl h)
    · have hk : product ∈ (FindProductsFromQueryResult saInternalBatch).map Prod.fst :=
        (FindProductsFromQueryResult_keys _ _).mpr (List.mem_map.mpr hproduct)
      obtain ⟨entry, hentry, hfst⟩ := List.mem_map.mp hk
      exact Or.inr (Or.inr ⟨_, ⟨entry, (products.perm _).mem_iff.mpr hentry, rfl⟩, hfst ▸ hm⟩)

theorem publish_filter (products : RangeOrder Unit)
    (saInternalInteractive saInternalBatch : List ProductTypeEndpointValue)
    (pred : Metric → Bool) (product : String)
    (hproduct : product ∈ saInternalBatch.map ProductTypeEndpointValue.Product)
    (hinternal : ∀ elem, pred (internalMetric elem) = false)
    (hother : ∀ other, other ≠ product →
      (productMetrics saInternalInteractive saInternalBatch other).filter pred = []) :
    (publish products saInternalInteractive saInternalBatch).filter pred =
      (productMetrics saInternalInteractive saInternalBatch product).filter pred := by
  unfold publish
  have hnil : ∀ rows : List ProductTypeEndpointValue,
      (rows.map internalMetric).filter pred = [] := by
    intro rows
    rw [List.filter_eq_nil_iff]
    intro m hm
    obtain ⟨elem, _, helem⟩ := List.mem_map.mp hm
    simp [← helem, hinternal elem]
  rw [List.filter_append, List.filter_append, hnil, hnil, List.nil_append, List.nil_append]
  have hperm := products.perm (FindProductsFromQueryResult saInternalBatch)
  have hwf := FindProductsFromQueryResult_WF saInternalBatch
  have hk : product ∈ (FindProductsFromQueryResult saInternalBatch).map Prod.fst :=
    (FindProductsFromQueryResult_keys _ _).mpr hproduct
  obtain ⟨entry, hentry, hfst⟩ := List.mem_map.mp hk
  have hentry' : entry = (product, ()) := by
    cases entry
    simp only at hfst
    rw [hfst]
  have hnodup : (products.order (FindProductsFromQueryResult saInternalBatch)).Nodup := by
    have : ((products.order (FindProductsFromQueryResult saInternalBatch)).map Prod.fst).Nodup :=
      ((hperm.map Prod.fst).nodup_iff).mpr hwf
    exact List.Nodup.of_map _ this
  exact filter_flatten_of_unique
    (fun entry => productMetrics saInternalInteractive saInternalBatch entry.1) pred _
    (product, ()) (hperm.mem_iff.mpr (hentry' ▸ hentry)) hnodup
    (fun x _ hx => hother x.1 (fun hh => hx (by cases x; simp only at hh; rw [hh])))

/-- C1: ZeroAlwaysWin returns 0.0 if and only if some value is strictly below
1.0, returns 1.0 if and only if no value is, and returns 1.0 on the empty
sequence, whatever the kind label. -/
theorem ZeroAlwaysWin_spec (valuesIn : List ℚ) (kind : String) :
    (ZeroAlwaysWin valuesIn kind = 0 ↔ ∃ v ∈ valuesIn, v < 1) ∧
    (ZeroAlwaysWin valuesIn kind = 1 ↔ ¬ ∃ v ∈ valuesIn, v < 1) ∧
    ZeroAlwaysWin [] kind = 1 := by
  refine ⟨?_, ?_, rfl⟩
  · induction valuesIn with
    | nil => simp [ZeroAlwaysWin]
    | cons v rest ih =>
      by_cases h : v < 1
      · simp [ZeroAlwaysWin, h]
      · simp [ZeroAlwaysWin, h, ih]
  · induction valuesIn with
    | nil => simp [ZeroAlwaysWin]
    | cons v rest ih =>
      by_cases h : v < 1
      · simp [ZeroAlwaysWin, h]
      · simp only [ZeroAlwaysWin, h, if_false, ih]
        simp [h]

/-- C3: ReadyValue maps the count 0.0 to 0.0 and every other count, negative
ones included, to 1.0. -/
theorem ReadyValue_spec :
    ReadyValue 0 = 0 ∧ (∀ x : ℚ, x ≠ 0 → ReadyValue x = 1) ∧
    (∀ x : ℚ, x < 0 → ReadyValue x = 1) := by
  refine ⟨by simp [ReadyValue], ?_, ?_⟩
  · intro x hx
    simp [ReadyValue, hx]
  · intro x hx
    simp [ReadyValue, ne_of_lt hx]

/-- C3 at the inputs of the edge-case test: 0, 5, 1/10, 1000 and -1. -/
theorem ReadyValue_spec_witness :
    ReadyValue 0 = 0 ∧ ReadyValue 5 = 1 ∧ ReadyValue (1 / 10) = 1 ∧
    ReadyValue 1000 = 1 ∧ ReadyValue (-1) = 1 :=
  ⟨ReadyValue_spec.1, ReadyValue_spec.2.1 5 (by norm_num),
   ReadyValue_spec.2.1 (1 / 10) (by norm_num), ReadyValue_spec.2.1 1000 (by norm_num),
   ReadyValue_spec.2.2 (-1) (by norm_num)⟩

/-- C5: when both queries succeed, the not-ready rows add no key to the map
seeded from the total-address result, so an endpoint absent from the total
result has no count; every endpoint of a returned row is an endpoint of the
total-address result, and an endpoint that only the not-ready result names
appears in no returned row. -/
theorem GetMetricSaInternal_no_phantom (e : Exporter) (re : Regexp) (b : Backend) (s : Sched)
    (typeEndpoint aggr : String) (log : List String) (total notReady : List Sample)
    (rows : List ProductTypeEndpointValue) (log' : List String)
    (h1 : b.respond log.length e.promURL
      (queryAllAdressSvc (BuildSaQueryEndpoints typeEndpoint e.mapKeyType)) =
        .ok (.vector total))
    (h2 : b.respond (log.length + 1) e.promURL
      (queryNotReadyAddressSvc (BuildSaQueryEndpoints typeEndpoint e.mapKeyType)) =
        .ok (.vector notReady))
    (hret : GetMetricSaInternal e re b s typeEndpoint aggr log = some (rows, log')) :
    (subtractNotReady (seedAvail total) notReady).map Prod.fst =
      (seedAvail total).map Prod.fst ∧
    (∀ elem ∈ notReady, elem.endpoint ∉ total.map Sample.endpoint →
      (subtractNotReady (seedAvail total) notReady).get? elem.endpoint = none ∧
      ∀ r ∈ rows, r.Endpoint ≠ elem.endpoint) ∧
    ∀ r ∈ rows, r.Endpoint ∈ total.map Sample.endpoint := by
  have hrows : ∀ r ∈ rows, r.Endpoint ∈ total.map Sample.endpoint := by
    intro r hr
    rw [GetMetricSaInternal_eq e re b s typeEndpoint aggr log total (.ok notReady) h1 h2] at hret
    cases hemit : emitRows re s.owners typeEndpoint e.mapKeyEndpoint
        (s.avail.order (availableCounts total (.ok notReady))) [] with
    | none => simp [hemit] at hret
    | some out =>
      simp only [hemit, Option.map_some', Option.some.injEq, Prod.mk.injEq] at hret
      rw [← hret.1] at hr
      rcases emitRows_mem re s.owners typeEndpoint e.mapKeyEndpoint _ [] out hemit r hr with
        hnil | ⟨kv, hkv, hep, _, _⟩
      · simp at hnil
      · have hkey : kv.1 ∈ (availableCounts total (.ok notReady)).map Prod.fst :=
          List.mem_map.mpr ⟨kv, (s.avail.perm _).mem_iff.mp hkv, rfl⟩
        rw [hep]
        exact (availableCounts_keys total (.ok notReady) kv.1).mp hkey
  refine ⟨subtractNotReady_keys _ _, ?_, hrows⟩
  intro elem _ habsent
  constructor
  · rw [GoMap.get?_eq_none_iff, subtractNotReady_keys, seedAvail_keys]
    exact habsent
  · intro r hr heq
    exact habsent (heq ▸ hrows r hr)

/-- C5 on a run: the not-ready result names `Ghost`, which has no total row. -/
theorem GetMetricSaInternal_no_phantom_witness :
    (subtractNotReady (seedAvail [sampleOf "Wheel" 2]) [sampleOf "Ghost" 1, sampleOf "Wheel" 0]).map
        Prod.fst = (seedAvail [sampleOf "Wheel" 2]).map Prod.fst ∧
    (∀ elem ∈ [sampleOf "Ghost" 1, sampleOf "Wheel" 0],
      elem.endpoint ∉ [sampleOf "Wheel" 2].map Sample.endpoint →
      (subtractNotReady (seedAvail [sampleOf "Wheel" 2])
        [sampleOf "Ghost" 1, sampleOf "Wheel" 0]).get? elem.endpoint = none ∧
      ∀ r ∈ [(⟨"Car", "interactive", "Wheel", 1⟩ : ProductTypeEndpointValue)],
        r.Endpoint ≠ elem.endpoint) ∧
    ∀ r ∈ [(⟨"Car", "interactive", "Wheel", 1⟩ : ProductTypeEndpointValue)],
      r.Endpoint ∈ [sampleOf "Wheel" 2].map Sample.endpoint :=
  GetMetricSaInternal_no_phantom
    (⟨"http://prometheus:9090", "1m", "5m", [("interactive", ["Wheel", "Ghost"])],
      [("Wheel", ["Car"]), ("Ghost", ["Car"])]⟩ : Exporter)
    literalRegexp
    (scriptedBackend [.ok (.vector [sampleOf "Wheel" 2]),
      .ok (.vector [sampleOf "Ghost" 1, sampleOf "Wheel" 0])])
    Sched.stored "interactive" "1m" [] [sampleOf "Wheel" 2]
    [sampleOf "Ghost" 1, sampleOf "Wheel" 0]
    [⟨"Car", "interactive", "Wheel", 1⟩]
    ["sum by (endpoint)(kube_endpoint_address\x7bendpoint=~\"Wheel|Ghost|\"\x7d)",
     "sum by (endpoint)(kube_endpoint_address\x7bendpoint=~\"Wheel|Ghost|\",ready=\"false\"\x7d)"]
    rfl rfl
    (by
      simp [GetMetricSaInternal, PromQuery, scriptedBackend, assertVector, seedAvail,
        subtractNotReady, emitRows, FindProductsForEndpoint, findProductsLoop, literalRegexp,
        Sched.stored, RangeOrder.stored, GoMap.set, GoMap.get?, sampleOf, Sample.endpoint,
        ReadyValue, queryAllAdressSvc, queryNotReadyAddressSvc, BuildSaQueryEndpoints,
        subFloat64_two_zero])

/-- C6: when the total-address query succeeds (the not-ready query returning a
vector or failing) and FindProductsForEndpoint returns for every endpoint of
its result, GetMetricSaInternal returns; for every endpoint of the total
result its rows are, in order, one row
(product, type, endpoint, ReadyValue count) per entry of the product list that
FindProductsForEndpoint resolves for it, hence none when that list is empty;
no other endpoint has a row, and every row carries the requested type and a
product of the list resolved for its endpoint. -/
theorem GetMetricSaInternal_rows (e : Exporter) (re : Regexp) (b : Backend) (s : Sched)
    (typeEndpoint aggr : String) (log : List String) (total : List Sample)
    (notReady : Except String (List Sample))
    (hresolves : ∀ endpoint ∈ total.map Sample.endpoint, ∃ products,
      FindProductsForEndpoint re (s.owners endpoint) endpoint e.mapKeyEndpoint = some products)
    (h1 : b.respond log.length e.promURL
      (queryAllAdressSvc (BuildSaQueryEndpoints typeEndpoint e.mapKeyType)) =
        .ok (.vector total))
    (h2 : b.respond (log.length + 1) e.promURL
      (queryNotReadyAddressSvc (BuildSaQueryEndpoints typeEndpoint e.mapKeyType)) =
        notReady.map ModelValue.vector) :
    ∃ rows log', GetMetricSaInternal e re b s typeEndpoint aggr log = some (rows, log') ∧
      (∀ endpoint ∈ total.map Sample.endpoint, ∃ count products,
        (availableCounts total notReady).get? endpoint = some count ∧
        FindProductsForEndpoint re (s.owners endpoint) endpoint e.mapKeyEndpoint =
          some products ∧
        rows.filter (fun r => r.Endpoint = endpoint) =
          products.map (fun product =>
            (⟨product, typeEndpoint, endpoint, ReadyValue count⟩ :
              ProductTypeEndpointValue)) ∧
        (products = [] → ∀ r ∈ rows, r.Endpoint ≠ endpoint)) ∧
      (∀ endpoint, endpoint ∉ total.map Sample.endpoint → ∀ r ∈ rows, r.Endpoint ≠ endpoint) ∧
      ∀ r ∈ rows, r.Typ = typeEndpoint ∧ r.Endpoint ∈ total.map Sample.endpoint ∧
        ∃ products,
          FindProductsForEndpoint re (s.owners r.Endpoint) r.Endpoint e.mapKeyEndpoint =
            some products ∧
          r.Product ∈ products := by
  obtain ⟨rows, log', hret, hfilter⟩ :=
    GetMetricSaInternal_filter e re b s typeEndpoint aggr log total notReady hresolves h1 h2
  have hnone : ∀ endpoint, endpoint ∉ total.map Sample.endpoint →
      ∀ r ∈ rows, r.Endpoint ≠ endpoint := by
    intro endpoint habsent r hr heq
    have hin : r ∈ rows.filter (fun r => r.Endpoint = endpoint) :=
      List.mem_filter.mpr ⟨hr, by simpa using heq⟩
    have hget : (availableCounts total notReady).get? endpoint = none := by
      rw [GoMap.get?_eq_none_iff, availableCounts_keys]
      exact habsent
    rw [hfilter endpoint, hget] at hin
    simp at hin
  refine ⟨rows, log', hret, ?_, hnone, ?_⟩
  · intro endpoint hendpoint
    obtain ⟨products, hproducts⟩ := hresolves endpoint hendpoint
    cases hget : (availableCounts total notReady).get? endpoint with
    | none =>
      rw [GoMap.get?_eq_none_iff, availableCounts_keys] at hget
      exact absurd hendpoint hget
    | some count =>
      have hf := hfilter endpoint
      simp only [hget, hproducts, Option.getD_some] at hf
      refine ⟨count, products, rfl, hproducts, hf, ?_⟩
      intro hempty r hr heq
      have hin : r ∈ rows.filter (fun r => r.Endpoint = endpoint) :=
        List.mem_filter.mpr ⟨hr, by simpa using heq⟩
      rw [hf, hempty] at hin
      simp at hin
  · intro r hr
    have hin : r ∈ rows.filter (fun x => x.Endpoint = r.Endpoint) :=
      List.mem_filter.mpr ⟨hr, by simp⟩
    have hendpoint : r.Endpoint ∈ total.map Sample.endpoint := by
      by_contra habsent
      exact hnone r.Endpoint habsent r hr rfl
    obtain ⟨products, hproducts⟩ := hresolves r.Endpoint hendpoint
    cases hget : (availableCounts total notReady).get? r.Endpoint with
    | none =>
      rw [hfilter r.Endpoint, hget] at hin
      simp at hin
    | some count =>
      rw [hfilter r.Endpoint] at hin
      simp only [hget, hproducts, Option.getD_some] at hin
      obtain ⟨p, hp, hrow⟩ := List.mem_map.mp hin
      refine ⟨by rw [← hrow], hendpoint, products, hproducts, ?_⟩
      rw [← hrow]
      exact hp

/-- C6 on a run: `Wheel` is owned by `Car` and `Bike`, `Spare` by no product,
and the not-ready query fails. -/
theorem GetMetricSaInternal_rows_witness :
    ∃ rows log',
      GetMetricSaInternal
        (⟨"http://prometheus:9090", "1m", "5m", [("interactive", ["Wheel", "Spare"])],
          [("Wheel", ["Car", "Bike"]), ("Spare", [])]⟩ : Exporter)
        literalRegexp
        (scriptedBackend [.ok (.vector [sampleOf "Wheel" 2, sampleOf "Spare" 0]),
          .error "timeout"])
        Sched.stored "interactive" "1m" [] = some (rows, log') ∧
      (∀ endpoint ∈ [sampleOf "Wheel" 2, sampleOf "Spare" 0].map Sample.endpoint,
        ∃ count products,
        (availableCounts [sampleOf "Wheel" 2, sampleOf "Spare" 0] (.error "timeout")).get?
          endpoint = some count ∧
        FindProductsForEndpoint literalRegexp (Sched.stored.owners endpoint) endpoint
          [("Wheel", ["Car", "Bike"]), ("Spare", [])] = some products ∧
        rows.filter (fun r => r.Endpoint = endpoint) =
          products.map (fun product =>
            (⟨product, "interactive", endpoint, ReadyValue count⟩ :
              ProductTypeEndpointValue)) ∧
        (products = [] → ∀ r ∈ rows, r.Endpoint ≠ endpoint)) ∧
      (∀ endpoint, endpoint ∉ [sampleOf "Wheel" 2, sampleOf "Spare" 0].map Sample.endpoint →
        ∀ r ∈ rows, r.Endpoint ≠ endpoint) ∧
      ∀ r ∈ rows, r.Typ = "interactive" ∧
        r.Endpoint ∈ [sampleOf "Wheel" 2, sampleOf "Spare" 0].map Sample.endpoint ∧
        ∃ products,
          FindProductsForEndpoint literalRegexp (Sched.stored.owners r.Endpoint) r.Endpoint
            [("Wheel", ["Car", "Bike"]), ("Spare", [])] = some products ∧
          r.Product ∈ products :=
  GetMetricSaInternal_rows
    (⟨"http://prometheus:9090", "1m", "5m", [("interactive", ["Wheel", "Spare"])],
      [("Wheel", ["Car", "Bike"]), ("Spare", [])]⟩ : Exporter)
    literalRegexp
    (scriptedBackend [.ok (.vector [sampleOf "Wheel" 2, sampleOf "Spare" 0]),
      .error "timeout"])
    Sched.stored "interactive" "1m" [] [sampleOf "Wheel" 2, sampleOf "Spare" 0]
    (.error "timeout")
    (fun endpoint _ => FindProductsForEndpoint_isSome literalRegexp _ endpoint _
      (fun entry _ => rfl))
    rfl rfl

/-- C2: when the two calls of GetMetricSaInternal return the interactive and the
batch rows, HitProm returns, and for every product of the batch rows it sends
exactly one type gauge labelled (product, interactive), exactly one labelled
(product, batch) and exactly one overall gauge labelled product; their values
are ZeroAlwaysWin of the values of the interactive rows of the product, of the
values of its batch rows, and of the two-element sequence of these two values. -/
theorem HitProm_rollup (e : Exporter) (re : Regexp) (b : Backend) (cs : CycleSched)
    (log log1 log2 : List String)
    (saInternalInteractive saInternalBatch : List ProductTypeEndpointValue) (product : String)
    (hI : GetMetricSaInternal e re b cs.interactive "interactive" e.saInteractiveAggr log =
      some (saInternalInteractive, log1))
    (hB : GetMetricSaInternal e re b cs.batch "batch" e.saBatchAggr log1 =
      some (saInternalBatch, log2))
    (hproduct : product ∈ saInternalBatch.map ProductTypeEndpointValue.Product) :
    ∃ sent, HitProm e re b cs log = some (sent, log2) ∧
      sent.filter (fun m => m.desc = Desc.metricSaType ∧ m.labels = [product, "interactive"]) =
        [⟨Desc.metricSaType,
          ZeroAlwaysWin ((saInternalInteractive.filter (fun r => r.Product = product)).map
            ProductTypeEndpointValue.Value) (product ++ " " ++ "interactive"),
          [product, "interactive"]⟩] ∧
      sent.filter (fun m => m.desc = Desc.metricSaType ∧ m.labels = [product, "batch"]) =
        [⟨Desc.metricSaType,
          ZeroAlwaysWin ((saInternalBatch.filter (fun r => r.Product = product)).map
            ProductTypeEndpointValue.Value) (product ++ " " ++ "batch"),
          [product, "batch"]⟩] ∧
      sent.filter (fun m => m.desc = Desc.metricSaOverall ∧ m.labels = [product]) =
        [⟨Desc.metricSaOverall,
          ZeroAlwaysWin
            [ZeroAlwaysWin ((saInternalInteractive.filter (fun r => r.Product = product)).map
                ProductTypeEndpointValue.Value) (product ++ " " ++ "interactive"),
             ZeroAlwaysWin ((saInternalBatch.filter (fun r => r.Product = product)).map
                ProductTypeEndpointValue.Value) (product ++ " " ++ "batch")]
            (product ++ " overall"),
          [product]⟩] := by
  refine ⟨publish cs.products saInternalInteractive saInternalBatch, ?_, ?_, ?_, ?_⟩
  · simp [HitProm, hI, hB]
  · rw [publish_filter cs.products saInternalInteractive saInternalBatch _ product hproduct
      (fun elem => by simp [internalMetric])
      (fun other hother => by simp [productMetrics, hother])]
    simp [productMetrics, ExtractValues_eq_filter_map]
  · rw [publish_filter cs.products saInternalInteractive saInternalBatch _ product hproduct
      (fun elem => by simp [internalMetric])
      (fun other hother => by simp [productMetrics, hother])]
    simp [productMetrics, ExtractValues_eq_filter_map]
  · rw [publish_filter cs.products saInternalInteractive saInternalBatch _ product hproduct
      (fun elem => by simp [internalMetric])
      (fun other hother => by simp [productMetrics, hother])]
    simp [productMetrics, ExtractValues_eq_filter_map]

theorem bike_interactive :
    GetMetricSaInternal bikeExporter literalRegexp bikeBackend CycleSched.stored.interactive
      "interactive" bikeExporter.saInteractiveAggr [] =
      some ([⟨"Bike", "interactive", "Pedal", 1⟩], bikeLog1) := by
  simp [GetMetricSaInternal, PromQuery, bikeExporter, bikeBackend, bikeLog1, scriptedBackend,
    assertVector, seedAvail, subtractNotReady, emitRows, FindProductsForEndpoint,
    findProductsLoop, literalRegexp, CycleSched.stored, Sched.stored, RangeOrder.stored,
    GoMap.set, GoMap.get?, sampleOf, Sample.endpoint, ReadyValue, queryAllAdressSvc,
    queryNotReadyAddressSvc, BuildSaQueryEndpoints]

theorem bike_batch :
    GetMetricSaInternal bikeExporter literalRegexp bikeBackend CycleSched.stored.batch
      "batch" bikeExporter.saBatchAggr bikeLog1 =
      some ([⟨"Car", "batch", "Motor", 0⟩], bikeLog2) := by
  simp [GetMetricSaInternal, PromQuery, bikeExporter, bikeBackend, bikeLog1, bikeLog2,
    scriptedBackend, assertVector, seedAvail, subtractNotReady, emitRows,
    FindProductsForEndpoint, findProductsLoop, literalRegexp, CycleSched.stored, Sched.stored,
    RangeOrder.stored, GoMap.set, GoMap.get?, sampleOf, Sample.endpoint, ReadyValue,
    queryAllAdressSvc, queryNotReadyAddressSvc, BuildSaQueryEndpoints, subFloat64_self]

/-- C2 on a cycle whose interactive rows are one row of `Bike` at 1 and whose
batch rows are one row of `Car` at 0: the gauges of `Car` are 1, 0 and 0. -/
theorem HitProm_rollup_witness :
    ∃ sent, HitProm bikeExporter literalRegexp bikeBackend CycleSched.stored [] =
        some (sent, bikeLog2) ∧
      sent.filter (fun m => m.desc = Desc.metricSaType ∧ m.labels = ["Car", "interactive"]) =
        [⟨Desc.metricSaType, 1, ["Car", "interactive"]⟩] ∧
      sent.filter (fun m => m.desc = Desc.metricSaType ∧ m.labels = ["Car", "batch"]) =
        [⟨Desc.metricSaType, 0, ["Car", "batch"]⟩] ∧
      sent.filter (fun m => m.desc = Desc.metricSaOverall ∧ m.labels = ["Car"]) =
        [⟨Desc.metricSaOverall, 0, ["Car"]⟩] := by
  obtain ⟨sent, hsent, h1, h2, h3⟩ :=
    HitProm_rollup bikeExporter literalRegexp bikeBackend CycleSched.stored [] bikeLog1 bikeLog2
      [⟨"Bike", "interactive", "Pedal", 1⟩] [⟨"Car", "batch", "Motor", 0⟩] "Car"
      bike_interactive bike_batch (by simp)
  refine ⟨sent, hsent, ?_, ?_, ?_⟩
  · rw [h1]; simp [ZeroAlwaysWin]
  · rw [h2]; simp [ZeroAlwaysWin]
  · rw [h3]; simp [ZeroAlwaysWin]

/-- C7: when the two calls of GetMetricSaInternal return the interactive and the
batch rows, HitProm returns, and a product is the first label of some type
gauge, and likewise of some overall gauge, exactly when it is the product of a
batch row; a product of interactive rows only has neither gauge. -/
theorem HitProm_products (e : Exporter) (re : Regexp) (b : Backend) (cs : CycleSched)
    (log log1 log2 : List String)
    (saInternalInteractive saInternalBatch : List ProductTypeEndpointValue)
    (hI : GetMetricSaInternal e re b cs.interactive "interactive" e.saInteractiveAggr log =
      some (saInternalInteractive, log1))
    (hB : GetMetricSaInternal e re b cs.batch "batch" e.saBatchAggr log1 =
      some (saInternalBatch, log2)) :
    ∃ sent, HitProm e re b cs log = some (sent, log2) ∧
      ∀ product,
        ((∃ m ∈ sent, m.desc = Desc.metricSaType ∧ m.labels.head? = some product) ↔
          product ∈ saInternalBatch.map ProductTypeEndpointValue.Product) ∧
        ((∃ m ∈ sent, m.desc = Desc.metricSaOverall ∧ m.labels.head? = some product) ↔
          product ∈ saInternalBatch.map ProductTypeEndpointValue.Product) := by
  refine ⟨publish cs.products saInternalInteractive saInternalBatch, ?_, ?_⟩
  · simp [HitProm, hI, hB]
  · intro product
    constructor
    · constructor
      · rintro ⟨m, hm, hdesc, hhead⟩
        rcases (mem_publish _ _ _ m).mp hm with h | h | ⟨q, hq, hmem⟩
        · obtain ⟨elem, _, helem⟩ := List.mem_map.mp h
          rw [← helem] at hdesc
          simp [internalMetric] at hdesc
        · obtain ⟨elem, _, helem⟩ := List.mem_map.mp h
          rw [← helem] at hdesc
          simp [internalMetric] at hdesc
        · have hq' : q = product := by
            simp only [productMetrics, List.mem_cons, List.mem_singleton, List.not_mem_nil,
              or_false] at hmem
            rcases hmem with h | h | h <;> (rw [h] at hhead; simpa using hhead)
          exact hq' ▸ hq
      · intro hproduct
        exact ⟨_, (mem_publish _ _ _ _).mpr (Or.inr (Or.inr ⟨product, hproduct,
          List.mem_cons_self _ _⟩)), rfl, rfl⟩
    · constructor
      · rintro ⟨m, hm, hdesc, hhead⟩
        rcases (mem_publish _ _ _ m).mp hm with h | h | ⟨q, hq, hmem⟩
        · obtain ⟨elem, _, helem⟩ := List.mem_map.mp h
          rw [← helem] at hdesc
          simp [internalMetric] at hdesc
        · obtain ⟨elem, _, helem⟩ := List.mem_map.mp h
          rw [← helem] at hdesc
          simp [internalMetric] at hdesc
        · have hq' : q = product := by
            simp only [productMetrics, List.mem_cons, List.mem_singleton, List.not_mem_nil,
              or_false] at hmem
            rcases hmem with h | h | h <;> (rw [h] at hhead; simpa using hhead)
          exact hq' ▸ hq
      · intro hproduct
        refine ⟨⟨Desc.metricSaOverall,
          ZeroAlwaysWin
            [ZeroAlwaysWin (ExtractValues product saInternalInteractive)
                (product ++ " " ++ "interactive"),
             ZeroAlwaysWin (ExtractValues product saInternalBatch) (product ++ " " ++ "batch")]
            (product ++ " overall"),
          [product]⟩,
          (mem_publish _ _ _ _).mpr (Or.inr (Or.inr ⟨product, hproduct, ?_⟩)), rfl, rfl⟩
        simp [productMetrics]

/-- C7 on a cycle whose interactive rows are one row of `Bike` and whose batch
rows are one row of `Car`: `Car` has both gauges, `Bike` has neither. -/
theorem HitProm_products_witness :
    ∃ sent, HitProm bikeExporter literalRegexp bikeBackend CycleSched.stored [] =
        some (sent, bikeLog2) ∧
      (∃ m ∈ sent, m.desc = Desc.metricSaType ∧ m.labels.head? = some "Car") ∧
      (∃ m ∈ sent, m.desc = Desc.metricSaOverall ∧ m.labels.head? = some "Car") ∧
      (¬ ∃ m ∈ sent, m.desc = Desc.metricSaType ∧ m.labels.head? = some "Bike") ∧
      ¬ ∃ m ∈ sent, m.desc = Desc.metricSaOverall ∧ m.labels.head? = some "Bike" := by
  obtain ⟨sent, hsent, h⟩ :=
    HitProm_products bikeExporter literalRegexp bikeBackend CycleSched.stored [] bikeLog1
      bikeLog2 [⟨"Bike", "interactive", "Pedal", 1⟩] [⟨"Car", "batch", "Motor", 0⟩]
      bike_interactive bike_batch
  refine ⟨sent, hsent, (h "Car").1.mpr (by simp), (h "Car").2.mpr (by simp), ?_, ?_⟩
  · intro hex
    have := (h "Bike").1.mp hex
    simp at this
  · intro hex
    have := (h "Bike").2.mp hex
    simp at this

/-- C8: when the liveness query fails, CollectPromMetrics sends exactly one
metric, the dependency gauge with value 0 and label prometheus, and the only
query it has issued is the liveness query. -/
theorem CollectPromMetrics_down (e : Exporter) (re : Regexp) (b : Backend) (cs : CycleSched)
    (log : List String) (err : String)
    (h : b.respond log.length e.promURL "up\x7bjob=\"prometheus\"\x7d" = .error err) :
    CollectPromMetrics e re b cs log =
      some ([⟨Desc.up, 0, ["prometheus"]⟩], log ++ ["up\x7bjob=\"prometheus\"\x7d"]) := by
  simp [CollectPromMetrics, TestProm, PromQuery, h]

/-- C8 on a backend that refuses every connection. -/
theorem CollectPromMetrics_down_witness :
    CollectPromMetrics carExporter literalRegexp (scriptedBackend []) CycleSched.stored [] =
      some ([⟨Desc.up, 0, ["prometheus"]⟩], [] ++ ["up\x7bjob=\"prometheus\"\x7d"]) :=
  CollectPromMetrics_down carExporter literalRegexp (scriptedBackend []) CycleSched.stored []
    "connection refused" rfl

/-- C9, at the failing input: the type `nonexistent` is absent from the type
index and the type `batch` is registered with no endpoints, so the
endpoint-set expression of both is empty; GetMetricSaInternal has no guard on
it, issues both queries all the same, and when the backend answers the
total-address query with a row for `endpoint1` it returns a row instead of the
empty sequence. -/
theorem GetMetricSaInternal_empty_expression_returns_rows :
    BuildSaQueryEndpoints "nonexistent" [("interactive", ["endpoint1"])] = "" ∧
    GetMetricSaInternal
      (⟨"http://prometheus:9090", "1m", "5m", [("interactive", ["endpoint1"])],
        [("endpoint1", ["TestProduct"])]⟩ : Exporter)
      literalRegexp
      (scriptedBackend [.ok (.vector [sampleOf "endpoint1" 1]), .ok (.vector [])])
      Sched.stored "nonexistent" "1m" [] =
      some ([⟨"TestProduct", "nonexistent", "endpoint1", 1⟩],
        ["sum by (endpoint)(kube_endpoint_address\x7bendpoint=~\"\"\x7d)",
         "sum by (endpoint)(kube_endpoint_address\x7bendpoint=~\"\",ready=\"false\"\x7d)"]) ∧
    BuildSaQueryEndpoints "batch" [("batch", [])] = "" ∧
    GetMetricSaInternal
      (⟨"http://prometheus:9090", "1m", "5m", [("batch", [])],
        [("endpoint1", ["TestProduct"])]⟩ : Exporter)
      literalRegexp
      (scriptedBackend [.ok (.vector [sampleOf "endpoint1" 1]), .ok (.vector [])])
      Sched.stored "batch" "1m" [] =
      some ([⟨"TestProduct", "batch", "endpoint1", 1⟩],
        ["sum by (endpoint)(kube_endpoint_address\x7bendpoint=~\"\"\x7d)",
         "sum by (endpoint)(kube_endpoint_address\x7bendpoint=~\"\",ready=\"false\"\x7d)"]) := by
  refine ⟨rfl, ?_, rfl, ?_⟩
  · simp [GetMetricSaInternal, PromQuery, scriptedBackend, assertVector, seedAvail,
      subtractNotReady, emitRows, FindProductsForEndpoint, findProductsLoop, literalRegexp,
      Sched.stored, RangeOrder.stored, GoMap.set, GoMap.get?, sampleOf, Sample.endpoint,
      ReadyValue, queryAllAdressSvc, queryNotReadyAddressSvc, BuildSaQueryEndpoints]
  · simp [GetMetricSaInternal, PromQuery, scriptedBackend, assertVector, seedAvail,
      subtractNotReady, emitRows, FindProductsForEndpoint, findProductsLoop, literalRegexp,
      Sched.stored, RangeOrder.stored, GoMap.set, GoMap.get?, sampleOf, Sample.endpoint,
      ReadyValue, queryAllAdressSvc, queryNotReadyAddressSvc, BuildSaQueryEndpoints]

/-- C10: for an ownership map whose patterns are all valid and for every order
in which the `range` visits its entries, FindProductsForEndpoint returns: when
some entry matches the endpoint, the result is the product list of the first
matching entry in the order of the visit; when no entry matches, it is the
empty sequence. -/
theorem FindProductsForEndpoint_first_match (re : Regexp) (ro : RangeOrder (List String))
    (endpointToTest : String) (mapKeyEndpoint : GoMap (List String))
    (hvalid : ValidPatterns re mapKeyEndpoint) :
    ((∃ entry ∈ mapKeyEndpoint, Matches re endpointToTest entry) →
      ∃ before entry after, ro.order mapKeyEndpoint = before ++ entry :: after ∧
        entry ∈ mapKeyEndpoint ∧ Matches re endpointToTest entry ∧
        (∀ x ∈ before, ¬ Matches re endpointToTest x) ∧
        FindProductsForEndpoint re ro endpointToTest mapKeyEndpoint = some entry.2) ∧
    ((¬ ∃ entry ∈ mapKeyEndpoint, Matches re endpointToTest entry) →
      FindProductsForEndpoint re ro endpointToTest mapKeyEndpoint = some []) := by
  have hloop : ∀ l : List (String × List String),
      (∀ entry ∈ l, (re.compile entry.1).isSome = true) →
      ((∃ entry ∈ l, Matches re endpointToTest entry) →
        ∃ before entry after, l = before ++ entry :: after ∧
          Matches re endpointToTest entry ∧
          (∀ x ∈ before, ¬ Matches re endpointToTest x) ∧
          findProductsLoop re endpointToTest l = some entry.2) ∧
      ((¬ ∃ entry ∈ l, Matches re endpointToTest entry) →
        findProductsLoop re endpointToTest l = some []) := by
    intro l
    induction l with
    | nil =>
      intro _
      exact ⟨fun ⟨_, h, _⟩ => absurd h (List.not_mem_nil _), fun _ => rfl⟩
    | cons head rest ih =>
      intro hv
      obtain ⟨endpoint, products⟩ := head
      obtain ⟨pattern, hp⟩ :=
        Option.isSome_iff_exists.mp (hv (endpoint, products) (List.mem_cons_self _ _))
      simp only at hp
      have ihrest := ih (fun x hx => hv x (List.mem_cons_of_mem _ hx))
      by_cases hm : pattern endpointToTest = true
      · refine ⟨fun _ => ⟨[], (endpoint, products), rest, rfl, ⟨pattern, hp, hm⟩,
          fun x hx => absurd hx (List.not_mem_nil _), by simp [findProductsLoop, hp, hm]⟩, ?_⟩
        intro hno
        exact absurd ⟨(endpoint, products), List.mem_cons_self _ _, pattern, hp, hm⟩ hno
      · have hhead : ¬ Matches re endpointToTest (endpoint, products) := by
          rintro ⟨q, hq, hqm⟩
          simp only at hq
          rw [hp] at hq
          cases hq
          exact hm hqm
        constructor
        · rintro ⟨entry, hentry, hmatch⟩
          have hin : entry ∈ rest := by
            rcases List.mem_cons.mp hentry with heq | hin
            · exact absurd (heq ▸ hmatch) hhead
            · exact hin
          obtain ⟨before, found, after, hsplit, hfound, hbefore, hres⟩ :=
            ihrest.1 ⟨entry, hin, hmatch⟩
          refine ⟨(endpoint, products) :: before, found, after, by rw [hsplit]; rfl, hfound,
            ?_, by simp [findProductsLoop, hp, hm, hres]⟩
          intro x hx
          rcases List.mem_cons.mp hx with heq | hxin
          · exact heq ▸ hhead
          · exact hbefore x hxin
        · intro hno
          have hno' : ¬ ∃ entry ∈ rest, Matches re endpointToTest entry := by
            rintro ⟨entry, hentry, hmatch⟩
            exact hno ⟨entry, List.mem_cons_of_mem _ hentry, hmatch⟩
          simp [findProductsLoop, hp, hm, ihrest.2 hno']
  have hperm := ro.perm mapKeyEndpoint
  have hl := hloop (ro.order mapKeyEndpoint)
    (fun entry hentry => hvalid entry (hperm.mem_iff.mp hentry))
  constructor
  · rintro ⟨entry, hentry, hmatch⟩
    obtain ⟨before, found, after, hsplit, hfound, hbefore, hres⟩ :=
      hl.1 ⟨entry, hperm.mem_iff.mpr hentry, hmatch⟩
    refine ⟨before, found, after, hsplit, ?_, hfound, hbefore, hres⟩
    apply hperm.mem_iff.mp
    rw [hsplit]
    simp
  · intro hno
    apply hl.2
    rintro ⟨entry, hentry, hmatch⟩
    exact hno ⟨entry, hperm.mem_iff.mp hentry, hmatch⟩

/-- C10 on a map with two patterns that both match `Wheel`, visited last entry
first: the result is the product list of `Whe`, the first match of that visit,
where the stored order gives that of `Wheel`; `svc-foo` matches no pattern. -/
theorem FindProductsForEndpoint_first_match_witness :
    (∃ before entry after,
      (RangeOrder.reversed (List String)).order
          [("Wheel", ["Car"]), ("Tires", ["Truck"]), ("Whe", ["Cart", "Barrow"])] =
        before ++ entry :: after ∧
      entry ∈ [("Wheel", ["Car"]), ("Tires", ["Truck"]), ("Whe", ["Cart", "Barrow"])] ∧
      Matches literalRegexp "Wheel" entry ∧
      (∀ x ∈ before, ¬ Matches literalRegexp "Wheel" x) ∧
      FindProductsForEndpoint literalRegexp (RangeOrder.reversed (List String)) "Wheel"
        [("Wheel", ["Car"]), ("Tires", ["Truck"]), ("Whe", ["Cart", "Barrow"])] =
        some entry.2) ∧
    FindProductsForEndpoint literalRegexp (RangeOrder.reversed (List String)) "Wheel"
        [("Wheel", ["Car"]), ("Tires", ["Truck"]), ("Whe", ["Cart", "Barrow"])] =
      some ["Cart", "Barrow"] ∧
    FindProductsForEndpoint literalRegexp (RangeOrder.stored (List String)) "Wheel"
        [("Wheel", ["Car"]), ("Tires", ["Truck"]), ("Whe", ["Cart", "Barrow"])] =
      some ["Car"] ∧
    FindProductsForEndpoint literalRegexp (RangeOrder.reversed (List String)) "svc-foo"
        [("Wheel", ["Car"]), ("Tires", ["Truck"]), ("Whe", ["Cart", "Barrow"])] = some [] := by
  have hvalid : ValidPatterns literalRegexp
      [("Wheel", ["Car"]), ("Tires", ["Truck"]), ("Whe", ["Cart", "Barrow"])] := by
    intro entry _; rfl
  refine ⟨?_, by decide, by decide, ?_⟩
  · exact (FindProductsForEndpoint_first_match literalRegexp (RangeOrder.reversed (List String))
      "Wheel" _ hvalid).1
      ⟨("Wheel", ["Car"]), by simp, _, rfl, by decide⟩
  · exact (FindProductsForEndpoint_first_match literalRegexp (RangeOrder.reversed (List String))
      "svc-foo" _ hvalid).2 (by
        rintro ⟨entry, hentry, pattern, hcompile, hmatch⟩
        simp only [literalRegexp, Option.some.injEq] at hcompile
        subst hcompile
        simp only [List.mem_cons, List.mem_singleton, List.not_mem_nil, or_false] at hentry
        rcases hentry with h | h | h <;> subst h <;> revert hmatch <;> decide)

/-! ### Order of the visit in FindProductsForEndpoint -/

theorem findProductsLoop_result (re : Regexp) (endpointToTest : String)
    (l : List (String × List String)) (products : List String)
    (h : findProductsLoop re endpointToTest l = some products) :
    (∃ entry ∈ l, Matches re endpointToTest entry ∧ products = entry.2) ∨
    ((∀ entry ∈ l, ¬ Matches re endpointToTest entry) ∧ products = []) := by
  induction l with
  | nil =>
    simp only [findProductsLoop, Option.some.injEq] at h
    exact Or.inr ⟨fun _ hentry => absurd hentry (List.not_mem_nil _), h.symm⟩
  | cons head rest ih =>
    obtain ⟨endpoint, owners⟩ := head
    cases hc : re.compile endpoint with
    | none => simp [findProductsLoop, hc] at h
    | some pattern =>
      by_cases hm : pattern endpointToTest = true
      · simp only [findProductsLoop, hc, hm, if_true, Option.some.injEq] at h
        exact Or.inl ⟨(endpoint, owners), List.mem_cons_self _ _, ⟨pattern, hc, hm⟩, h.symm⟩
      · simp only [findProductsLoop, hc, hm] at h
        have hhead : ¬ Matches re endpointToTest (endpoint, owners) := by
          rintro ⟨q, hq, hqm⟩
          simp only at hq
          rw [hc] at hq
          cases hq
          exact hm hqm
        rcases ih h with ⟨entry, hentry, hmatch, hprod⟩ | ⟨hnone, hprod⟩
        · exact Or.inl ⟨entry, List.mem_cons_of_mem _ hentry, hmatch, hprod⟩
        · refine Or.inr ⟨?_, hprod⟩
          intro entry hentry
          rcases List.mem_cons.mp hentry with heq | hin
          · exact heq ▸ hhead
          · exact hnone entry hin

theorem FindProductsForEndpoint_result (re : Regexp) (ro : RangeOrder (List String))
    (endpointToTest : String) (mapKeyEndpoint : GoMap (List String)) (products : List String)
    (h : FindProductsForEndpoint re ro endpointToTest mapKeyEndpoint = some products) :
    (∃ entry ∈ mapKeyEndpoint, Matches re endpointToTest entry ∧ products = entry.2) ∨
    ((∀ entry ∈ mapKeyEndpoint, ¬ Matches re endpointToTest entry) ∧ products = []) := by
  have hperm := ro.perm mapKeyEndpoint
  rcases findProductsLoop_result re endpointToTest _ products h with
    ⟨entry, hentry, hmatch, hprod⟩ | ⟨hnone, hprod⟩
  · exact Or.inl ⟨entry, hperm.mem_iff.mp hentry, hmatch, hprod⟩
  · exact Or.inr ⟨fun entry hentry => hnone entry (hperm.mem_iff.mpr hentry), hprod⟩

/-- Two visits of a map with valid patterns give the same result unless two
entries with different product lists match the endpoint. -/
theorem FindProductsForEndpoint_orders (re : Regexp) (ro1 ro2 : RangeOrder (List String))
    (endpointToTest : String) (mapKeyEndpoint : GoMap (List String))
    (hvalid : ValidPatterns re mapKeyEndpoint) :
    FindProductsForEndpoint re ro1 endpointToTest mapKeyEndpoint =
      FindProductsForEndpoint re ro2 endpointToTest mapKeyEndpoint ∨
    ∃ x ∈ mapKeyEndpoint, ∃ y ∈ mapKeyEndpoint, x ≠ y ∧
      Matches re endpointToTest x ∧ Matches re endpointToTest y := by
  obtain ⟨p1, h1⟩ := FindProductsForEndpoint_isSome re ro1 endpointToTest mapKeyEndpoint hvalid
  obtain ⟨p2, h2⟩ := FindProductsForEndpoint_isSome re ro2 endpointToTest mapKeyEndpoint hvalid
  rw [h1, h2]
  rcases FindProductsForEndpoint_result re ro1 endpointToTest mapKeyEndpoint p1 h1 with
    ⟨x, hx, hxm, hp1⟩ | ⟨hnone1, hp1⟩
  · rcases FindProductsForEndpoint_result re ro2 endpointToTest mapKeyEndpoint p2 h2 with
      ⟨y, hy, hym, hp2⟩ | ⟨hnone2, _⟩
    · by_cases hxy : x = y
      · left
        rw [hp1, hp2, hxy]
      · exact Or.inr ⟨x, hx, y, hy, hxy, hxm, hym⟩
    · exact absurd hxm (hnone2 x hx)
  · rcases FindProductsForEndpoint_result re ro2 endpointToTest mapKeyEndpoint p2 h2 with
      ⟨y, hy, hym, _⟩ | ⟨_, hp2⟩
    · exact absurd hym (hnone1 y hy)
    · left
      rw [hp1, hp2]

/-- Two visits that both return give the same product list when at most one
entry matches the endpoint, whether or not every pattern is valid. -/
theorem FindProductsForEndpoint_agree (re : Regexp) (ro1 ro2 : RangeOrder (List String))
    (endpointToTest : String) (mapKeyEndpoint : GoMap (List String))
    (products1 products2 : List String)
    (huniq : ∀ x ∈ mapKeyEndpoint, ∀ y ∈ mapKeyEndpoint,
      Matches re endpointToTest x → Matches re endpointToTest y → x = y)
    (h1 : FindProductsForEndpoint re ro1 endpointToTest mapKeyEndpoint = some products1)
    (h2 : FindProductsForEndpoint re ro2 endpointToTest mapKeyEndpoint = some products2) :
    products1 = products2 := by
  rcases FindProductsForEndpoint_result re ro1 endpointToTest mapKeyEndpoint products1 h1 with
    ⟨x, hx, hxm, hp1⟩ | ⟨hnone1, hp1⟩
  · rcases FindProductsForEndpoint_result re ro2 endpointToTest mapKeyEndpoint products2 h2 with
      ⟨y, hy, hym, hp2⟩ | ⟨hnone2, _⟩
    · rw [hp1, hp2, huniq x hx y hy hxm hym]
    · exact absurd hxm (hnone2 x hx)
  · rcases FindProductsForEndpoint_result re ro2 endpointToTest mapKeyEndpoint products2 h2 with
      ⟨y, hy, hym, _⟩ | ⟨_, hp2⟩
    · exact absurd hym (hnone1 y hy)
    · rw [hp1, hp2]

/-- C11, at the failing input: only the pattern `Wheel` of the map matches the
endpoint `Wheel`, the other key is not a valid regular expression. Visited as
stored, FindProductsForEndpoint returns the product list of `Wheel`; visited
last entry first, it reaches the invalid key and panics: the two orders do not
give the same product list. -/
theorem FindProductsForEndpoint_order_decides_panic :
    (∀ x ∈ [("Wheel", ["Car"]), ("Axle(", ["Bus"])],
      ∀ y ∈ [("Wheel", ["Car"]), ("Axle(", ["Bus"])],
        Matches groupRegexp "Wheel" x → Matches groupRegexp "Wheel" y → x = y) ∧
    Matches groupRegexp "Wheel" ("Wheel", ["Car"]) ∧
    FindProductsForEndpoint groupRegexp (RangeOrder.stored (List String)) "Wheel"
      [("Wheel", ["Car"]), ("Axle(", ["Bus"])] = some ["Car"] ∧
    FindProductsForEndpoint groupRegexp (RangeOrder.reversed (List String)) "Wheel"
      [("Wheel", ["Car"]), ("Axle(", ["Bus"])] = none := by
  have honly : ∀ x ∈ [("Wheel", ["Car"]), ("Axle(", ["Bus"])],
      Matches groupRegexp "Wheel" x → x = ("Wheel", ["Car"]) := by
    rintro x hx ⟨pattern, hcompile, _⟩
    simp only [List.mem_cons, List.mem_singleton, List.not_mem_nil, or_false] at hx
    rcases hx with h | h
    · exact h
    · subst h
      have hnone : groupRegexp.compile "Axle(" = none := rfl
      simp only at hcompile
      rw [hnone] at hcompile
      cases hcompile
  refine ⟨?_, ⟨_, rfl, by decide⟩, by decide, by decide⟩
  intro x hx y hy hxm hym
  rw [honly x hx hxm, honly y hy hym]

/-- C12, at the failing input: the only pattern of the map does not compile,
and FindProductsForEndpoint panics instead of returning a product list. -/
theorem FindProductsForEndpoint_invalid_pattern_panics :
    groupRegexp.compile "my-svc-(" = none ∧
    FindProductsForEndpoint groupRegexp (RangeOrder.stored (List String)) "my-svc-api"
      [("my-svc-(", ["MyProduct"])] = none :=
  ⟨rfl, by decide⟩

/-! ### BuildSaQueryEndpoints -/

theorem buildLoop_eq (endpoints : List String) (result : String) :
    endpoints.foldl (fun result endpoint => result ++ endpoint ++ "|") result =
      result ++ String.join (endpoints.map (fun endpoint => endpoint ++ "|")) := by
  induction endpoints generalizing result with
  | nil => simp [String.join]
  | cons x rest ih =>
    rw [List.foldl_cons, ih]
    apply String.ext
    simp [String.join_eq, List.append_assoc]

theorem length_join_tokens (endpoints : List String) :
    (String.join (endpoints.map (fun endpoint => endpoint ++ "|"))).length =
      (endpoints.map String.length).sum + endpoints.length := by
  induction endpoints with
  | nil => rfl
  | cons x rest ih =>
    have hcons : String.join ((x :: rest).map (fun endpoint => endpoint ++ "|")) =
        x ++ "|" ++ String.join (rest.map (fun endpoint => endpoint ++ "|")) := by
      apply String.ext
      simp [String.join_eq, List.append_assoc]
    rw [hcons, String.length_append, String.length_append, ih]
    simp only [List.map_cons, List.sum_cons, List.length_cons]
    have : "|".length = 1 := rfl
    omega

/-- C13: BuildSaQueryEndpoints returns the concatenation, in registration order,
of each endpoint registered under the type followed by the separator; its
length is the sum of the endpoint lengths plus their number; it is the empty
string when the type is unknown or registered with no endpoints. -/
theorem BuildSaQueryEndpoints_spec (typeEndpoint : String) (mapKeyType : GoMap (List String)) :
    BuildSaQueryEndpoints typeEndpoint mapKeyType =
      String.join (((mapKeyType.get? typeEndpoint).getD []).map
        (fun endpoint => endpoint ++ "|")) ∧
    (BuildSaQueryEndpoints typeEndpoint mapKeyType).length =
      (((mapKeyType.get? typeEndpoint).getD []).map String.length).sum +
        ((mapKeyType.get? typeEndpoint).getD []).length ∧
    (mapKeyType.get? typeEndpoint = none → BuildSaQueryEndpoints typeEndpoint mapKeyType = "") ∧
    (mapKeyType.get? typeEndpoint = some [] →
      BuildSaQueryEndpoints typeEndpoint mapKeyType = "") := by
  have heq : BuildSaQueryEndpoints typeEndpoint mapKeyType =
      String.join (((mapKeyType.get? typeEndpoint).getD []).map
        (fun endpoint => endpoint ++ "|")) := by
    unfold BuildSaQueryEndpoints
    rw [buildLoop_eq]
    simp
  refine ⟨heq, ?_, ?_, ?_⟩
  · rw [heq, length_join_tokens]
  · intro h
    rw [heq, h]
    rfl
  · intro h
    rw [heq, h]
    rfl

/-- C13 on the type index of the unit test: one and three endpoints, an
unknown type and a type registered with no endpoints. -/
theorem BuildSaQueryEndpoints_spec_witness :
    BuildSaQueryEndpoints "interactive"
        [("interactive", ["my-svc"]), ("batch", ["my-2nd-svc", "my-3rd-svc", "my-4th-svc"]),
         ("idle", [])] = "my-svc|" ∧
    BuildSaQueryEndpoints "batch"
        [("interactive", ["my-svc"]), ("batch", ["my-2nd-svc", "my-3rd-svc", "my-4th-svc"]),
         ("idle", [])] = "my-2nd-svc|my-3rd-svc|my-4th-svc|" ∧
    (BuildSaQueryEndpoints "batch"
        [("interactive", ["my-svc"]), ("batch", ["my-2nd-svc", "my-3rd-svc", "my-4th-svc"]),
         ("idle", [])]).length = (10 + 10 + 10) + 3 ∧
    BuildSaQueryEndpoints "nonexistent"
        [("interactive", ["my-svc"]), ("batch", ["my-2nd-svc", "my-3rd-svc", "my-4th-svc"]),
         ("idle", [])] = "" ∧
    BuildSaQueryEndpoints "idle"
        [("interactive", ["my-svc"]), ("batch", ["my-2nd-svc", "my-3rd-svc", "my-4th-svc"]),
         ("idle", [])] = "" :=
  ⟨by
      rw [(BuildSaQueryEndpoints_spec "interactive" _).1]
      decide,
    by
      rw [(BuildSaQueryEndpoints_spec "batch" _).1]
      decide,
    by
      rw [(BuildSaQueryEndpoints_spec "batch" _).2.1]
      decide,
    (BuildSaQueryEndpoints_spec "nonexistent" _).2.2.1 (by decide),
    (BuildSaQueryEndpoints_spec "idle" _).2.2.2 (by decide)⟩

/-! ### createServicesMaps -/

theorem addEndpoints_get? (product : String) (endpoints : List String)
    (m : GoMap (List String)) (e : String) :
    (addEndpoints product endpoints m).get? e =
      if e ∈ endpoints then
        some ((m.get? e).getD [] ++ List.replicate (endpoints.count e) product)
      else m.get? e := by
  unfold addEndpoints
  induction endpoints generalizing m with
  | nil => simp
  | cons x rest ih =>
    rw [List.foldl_cons, ih, GoMap.get?_set]
    by_cases hx : e = x
    · subst hx
      by_cases hrest : e ∈ rest
      · simp [hrest, List.replicate_succ]
      · simp [hrest, List.count_eq_zero_of_not_mem hrest]
    · have hx' : ¬ x = e := fun hh => hx hh.symm
      by_cases hrest : e ∈ rest
      · simp [hx, hx', hrest, List.count_cons]
      · simp [hx, hx', hrest]

theorem foldl_addService_types (jsonServices : List services)
    (maps : GoMap (List String) × GoMap (List String)) (t : String) :
    ((jsonServices.foldl addService maps).1).get? t =
      if t ∈ jsonServices.map services.Typ then
        some ((maps.1.get? t).getD [] ++
          ((jsonServices.filter (fun svc => svc.Typ = t)).map services.Endpoints).flatten)
      else maps.1.get? t := by
  induction jsonServices generalizing maps with
  | nil => simp
  | cons svc rest ih =>
    rw [List.foldl_cons, ih]
    simp only [addService, GoMap.get?_set]
    by_cases hsvc : t = svc.Typ
    · have hsvc' : svc.Typ = t := hsvc.symm
      by_cases hrest : t ∈ rest.map services.Typ
      · simp [hsvc', hrest, List.filter_cons, List.append_assoc]
      · have hnone : rest.filter (fun svc => svc.Typ = t) = [] := by
          rw [List.filter_eq_nil_iff]
          intro x hx hxt
          exact hrest (List.mem_map.mpr ⟨x, hx, by simpa using hxt⟩)
        simp [hsvc', hrest, List.filter_cons, hnone]
    · have hsvc' : ¬ svc.Typ = t := fun hh => hsvc hh.symm
      by_cases hrest : t ∈ rest.map services.Typ
      · simp [hsvc, hsvc', hrest, List.filter_cons]
      · simp [hsvc, hsvc', hrest]

theorem replicate_counts_nil (jsonServices : List services) (e : String)
    (h : e ∉ (jsonServices.map services.Endpoints).flatten) :
    (jsonServices.map
      (fun svc => List.replicate (svc.Endpoints.count e) svc.Product)).flatten = [] := by
  induction jsonServices with
  | nil => rfl
  | cons svc rest ih =>
    simp only [List.map_cons, List.flatten_cons, List.mem_append, not_or] at h
    simp [List.count_eq_zero_of_not_mem h.1, ih h.2]

theorem foldl_addService_endpoints (jsonServices : List services)
    (maps : GoMap (List String) × GoMap (List String)) (e : String) :
    ((jsonServices.foldl addService maps).2).get? e =
      if e ∈ (jsonServices.map services.Endpoints).flatten then
        some ((maps.2.get? e).getD [] ++
          (jsonServices.map
            (fun svc => List.replicate (svc.Endpoints.count e) svc.Product)).flatten)
      else maps.2.get? e := by
  induction jsonServices generalizing maps with
  | nil => simp
  | cons svc rest ih =>
    rw [List.foldl_cons, ih]
    simp only [addService, addEndpoints_get?]
    by_cases hsvc : e ∈ svc.Endpoints
    · by_cases hrest : e ∈ (rest.map services.Endpoints).flatten
      · simp only [hsvc, hrest, if_true, List.map_cons, List.flatten_cons, List.mem_append,
          true_or, Option.getD_some, List.append_assoc]
      · simp only [hsvc, hrest, if_true, if_false, List.map_cons, List.flatten_cons,
          List.mem_append, true_or, replicate_counts_nil rest e hrest, List.append_nil]
    · by_cases hrest : e ∈ (rest.map services.Endpoints).flatten
      · simp only [hsvc, hrest, if_true, if_false, List.map_cons, List.flatten_cons,
          List.mem_append, or_true, List.count_eq_zero_of_not_mem hsvc, List.replicate_zero,
          List.nil_append]
      · simp only [hsvc, hrest, if_false, List.map_cons, List.flatten_cons, List.mem_append,
          or_self]

/-- C14: the type index built by createServicesMaps maps a type that some
record declares to the concatenation, in record order, of the endpoint lists
of the records of that type, and has no entry for any other type. -/
theorem createServicesMaps_type_index (jsonServices : List services) (t : String) :
    ((∃ svc ∈ jsonServices, svc.Typ = t) →
      (createServicesMaps jsonServices).1.get? t =
        some (((jsonServices.filter (fun svc => svc.Typ = t)).map
          services.Endpoints).flatten)) ∧
    ((¬ ∃ svc ∈ jsonServices, svc.Typ = t) →
      (createServicesMaps jsonServices).1.get? t = none) := by
  unfold createServicesMaps
  rw [foldl_addService_types]
  constructor
  · rintro ⟨svc, hsvc, ht⟩
    have hin : t ∈ jsonServices.map services.Typ := List.mem_map.mpr ⟨svc, hsvc, ht⟩
    simp [hin, GoMap.get?]
  · intro hno
    have hnot : t ∉ jsonServices.map services.Typ := by
      intro hin
      obtain ⟨svc, hsvc, ht⟩ := List.mem_map.mp hin
      exact hno ⟨svc, hsvc, ht⟩
    simp [hnot, GoMap.get?]

/-- C15: the ownership map built by createServicesMaps has an entry for an
endpoint literal exactly when some record lists it, and then maps it to the
products of the records, in record order, each repeated once per occurrence
of the literal in the endpoints of its record. -/
theorem createServicesMaps_ownership (jsonServices : List services) (e : String) :
    ((createServicesMaps jsonServices).2.get? e ≠ none ↔
      ∃ svc ∈ jsonServices, e ∈ svc.Endpoints) ∧
    ((∃ svc ∈ jsonServices, e ∈ svc.Endpoints) →
      (createServicesMaps jsonServices).2.get? e =
        some ((jsonServices.map
          (fun svc => List.replicate (svc.Endpoints.count e) svc.Product)).flatten)) := by
  have hmem : e ∈ (jsonServices.map services.Endpoints).flatten ↔
      ∃ svc ∈ jsonServices, e ∈ svc.Endpoints := by
    simp only [List.mem_flatten, List.mem_map]
    constructor
    · rintro ⟨l, ⟨svc, hsvc, hl⟩, he⟩
      exact ⟨svc, hsvc, hl ▸ he⟩
    · rintro ⟨svc, hsvc, he⟩
      exact ⟨_, ⟨svc, hsvc, rfl⟩, he⟩
  unfold createServicesMaps
  rw [foldl_addService_endpoints]
  constructor
  · rw [← hmem]
    by_cases hin : e ∈ (jsonServices.map services.Endpoints).flatten
    · simp [hin]
    · simp [hin, GoMap.get?]
  · intro hex
    have hin := hmem.mpr hex
    simp [hin, GoMap.get?]

/-- C14 on `testServices`: the interactive endpoints of the first and third
records in order, duplicates kept; the type `idle` is absent. -/
theorem createServicesMaps_type_index_witness :
    (createServicesMaps testServices).1.get? "interactive" =
      some ["endpoint1", "endpoint2", "endpoint1", "endpoint2"] ∧
    (createServicesMaps testServices).1.get? "batch" = some ["endpoint3"] ∧
    (createServicesMaps testServices).1.get? "idle" = none :=
  ⟨by
      rw [(createServicesMaps_type_index testServices "interactive").1 (by decide)]
      decide,
    by
      rw [(createServicesMaps_type_index testServices "batch").1 (by decide)]
      decide,
    (createServicesMaps_type_index testServices "idle").2 (by decide)⟩

/-- C15 on `testServices`: `endpoint1` is owned twice by `Product1`,
`endpoint2` by `Product1` and `Product3`, and `endpoint9` is not a key. -/
theorem createServicesMaps_ownership_witness :
    (createServicesMaps testServices).2.get? "endpoint1" = some ["Product1", "Product1"] ∧
    (createServicesMaps testServices).2.get? "endpoint2" = some ["Product1", "Product3"] ∧
    ¬ (createServicesMaps testServices).2.get? "endpoint9" ≠ none :=
  ⟨by
      rw [(createServicesMaps_ownership testServices "endpoint1").2 (by decide)]
      decide,
    by
      rw [(createServicesMaps_ownership testServices "endpoint2").2 (by decide)]
      decide,
    fun h => absurd ((createServicesMaps_ownership testServices "endpoint9").1.mp h) (by decide)⟩

/-! ### Failing queries -/

theorem subtractNotReady_nil (vectorVal : List Sample) : subtractNotReady [] vectorVal = [] := by
  have h := subtractNotReady_keys [] vectorVal
  simpa using h

/-- A returned result is what step 3 emits for some map of counts. -/
theorem GetMetricSaInternal_some_emit (e : Exporter) (re : Regexp) (b : Backend) (s : Sched)
    (typeEndpoint aggr : String) (log : List String)
    (rows : List ProductTypeEndpointValue) (log' : List String)
    (hret : GetMetricSaInternal e re b s typeEndpoint aggr log = some (rows, log')) :
    ∃ m : GoMap ℚ,
      emitRows re s.owners typeEndpoint e.mapKeyEndpoint (s.avail.order m) [] = some rows := by
  unfold GetMetricSaInternal at hret
  simp only [PromQuery, List.length_append, List.length_singleton] at hret
  cases hq1 : b.respond log.length e.promURL
      (queryAllAdressSvc (BuildSaQueryEndpoints typeEndpoint e.mapKeyType)) with
  | error err1 =>
    simp only [hq1] at hret
    cases hq2 : b.respond (log.length + 1) e.promURL
        (queryNotReadyAddressSvc (BuildSaQueryEndpoints typeEndpoint e.mapKeyType)) with
    | error err2 =>
      simp only [hq2, Option.map_eq_some', Prod.mk.injEq] at hret
      obtain ⟨out, hout, hrows, _⟩ := hret
      exact ⟨[], hrows ▸ hout⟩
    | ok data2 =>
      cases data2 with
      | other => simp [hq2, assertVector] at hret
      | vector nr =>
        simp only [hq2, assertVector, Option.map_some', Option.map_eq_some',
          Prod.mk.injEq] at hret
        obtain ⟨out, hout, hrows, _⟩ := hret
        exact ⟨_, hrows ▸ hout⟩
  | ok data1 =>
    cases data1 with
    | other => simp [hq1, assertVector] at hret
    | vector total =>
      simp only [hq1, assertVector, Option.map_some'] at hret
      cases hq2 : b.respond (log.length + 1) e.promURL
          (queryNotReadyAddressSvc (BuildSaQueryEndpoints typeEndpoint e.mapKeyType)) with
      | error err2 =>
        simp only [hq2, Option.map_eq_some', Prod.mk.injEq] at hret
        obtain ⟨out, hout, hrows, _⟩ := hret
        exact ⟨_, hrows ▸ hout⟩
      | ok data2 =>
        cases data2 with
        | other => simp [hq2, assertVector] at hret
        | vector nr =>
          simp only [hq2, assertVector, Option.map_some', Option.map_eq_some',
            Prod.mk.injEq] at hret
          obtain ⟨out, hout, hrows, _⟩ := hret
          exact ⟨_, hrows ▸ hout⟩

/-- C16: when the total-address query fails, GetMetricSaInternal goes on to
issue the not-ready query and returns the empty sequence, whether that query
fails or returns a vector of rows. -/
theorem GetMetricSaInternal_total_fails (e : Exporter) (re : Regexp) (b : Backend) (s : Sched)
    (typeEndpoint aggr : String) (log : List String) (err : String)
    (h1 : b.respond log.length e.promURL
      (queryAllAdressSvc (BuildSaQueryEndpoints typeEndpoint e.mapKeyType)) = .error err)
    (h2 : b.respond (log.length + 1) e.promURL
      (queryNotReadyAddressSvc (BuildSaQueryEndpoints typeEndpoint e.mapKeyType)) ≠
        .ok .other) :
    GetMetricSaInternal e re b s typeEndpoint aggr log =
      some ([], log ++ [queryAllAdressSvc (BuildSaQueryEndpoints typeEndpoint e.mapKeyType)] ++
        [queryNotReadyAddressSvc (BuildSaQueryEndpoints typeEndpoint e.mapKeyType)]) := by
  have horder : s.avail.order [] = [] := List.Perm.eq_nil (s.avail.perm [])
  cases h2' : b.respond (log.length + 1) e.promURL
      (queryNotReadyAddressSvc (BuildSaQueryEndpoints typeEndpoint e.mapKeyType)) with
  | error err2 => simp [GetMetricSaInternal, PromQuery, h1, h2', horder, emitRows]
  | ok data =>
    cases data with
    | other => exact absurd h2' h2
    | vector nr =>
      simp [GetMetricSaInternal, PromQuery, h1, h2', assertVector, subtractNotReady_nil, horder,
        emitRows]

/-- C16 on a run where the total-address query times out and the not-ready
query returns rows for `Wheel` and `Motor`. -/
theorem GetMetricSaInternal_total_fails_witness :
    GetMetricSaInternal carExporter literalRegexp
      (scriptedBackend [.error "timeout",
        .ok (.vector [sampleOf "Wheel" 1, sampleOf "Motor" 0])])
      Sched.stored "interactive" "1m" [] =
      some ([], [] ++
        [queryAllAdressSvc (BuildSaQueryEndpoints "interactive" carExporter.mapKeyType)] ++
        [queryNotReadyAddressSvc (BuildSaQueryEndpoints "interactive" carExporter.mapKeyType)]) :=
  GetMetricSaInternal_total_fails carExporter literalRegexp
    (scriptedBackend [.error "timeout",
      .ok (.vector [sampleOf "Wheel" 1, sampleOf "Motor" 0])])
    Sched.stored "interactive" "1m" [] "timeout" rfl (by simp [scriptedBackend])

/-- C17: a run whose not-ready query fails returns exactly what the run
returns whose not-ready query succeeds with an empty vector, the total-address
query answering alike in both; when that answer is a vector and
FindProductsForEndpoint returns for each of its endpoints, the run returns, and
the rows of every endpoint carry ReadyValue of the count seeded from the
total-address result, which is the value of its row when endpoints are not
repeated. -/
theorem GetMetricSaInternal_not_ready_fails (e : Exporter) (re : Regexp) (b b' : Backend)
    (s : Sched) (typeEndpoint aggr : String) (log : List String) (err : String)
    (hsame : b.respond log.length e.promURL
        (queryAllAdressSvc (BuildSaQueryEndpoints typeEndpoint e.mapKeyType)) =
      b'.respond log.length e.promURL
        (queryAllAdressSvc (BuildSaQueryEndpoints typeEndpoint e.mapKeyType)))
    (hfail : b.respond (log.length + 1) e.promURL
      (queryNotReadyAddressSvc (BuildSaQueryEndpoints typeEndpoint e.mapKeyType)) = .error err)
    (hempty : b'.respond (log.length + 1) e.promURL
      (queryNotReadyAddressSvc (BuildSaQueryEndpoints typeEndpoint e.mapKeyType)) =
        .ok (.vector [])) :
    GetMetricSaInternal e re b s typeEndpoint aggr log =
      GetMetricSaInternal e re b' s typeEndpoint aggr log ∧
    ∀ total,
      b.respond log.length e.promURL
        (queryAllAdressSvc (BuildSaQueryEndpoints typeEndpoint e.mapKeyType)) =
          .ok (.vector total) →
      (∀ endpoint ∈ total.map Sample.endpoint, ∃ products,
        FindProductsForEndpoint re (s.owners endpoint) endpoint e.mapKeyEndpoint =
          some products) →
      ∃ rows log', GetMetricSaInternal e re b s typeEndpoint aggr log = some (rows, log') ∧
        (∀ endpoint ∈ total.map Sample.endpoint, ∃ count products,
          (seedAvail total).get? endpoint = some count ∧
          FindProductsForEndpoint re (s.owners endpoint) endpoint e.mapKeyEndpoint =
            some products ∧
          rows.filter (fun r => r.Endpoint = endpoint) =
            products.map (fun product =>
              (⟨product, typeEndpoint, endpoint, ReadyValue count⟩ :
                ProductTypeEndpointValue))) ∧
        ((total.map Sample.endpoint).Nodup → ∀ elem ∈ total, ∀ r ∈ rows,
          r.Endpoint = elem.endpoint → r.Value = ReadyValue elem.Value) := by
  constructor
  · cases hq : b'.respond log.length e.promURL
        (queryAllAdressSvc (BuildSaQueryEndpoints typeEndpoint e.mapKeyType)) with
    | error err1 =>
      simp [GetMetricSaInternal, PromQuery, hsame, hq, hfail, hempty, assertVector,
        subtractNotReady]
    | ok data =>
      cases data with
      | other => simp [GetMetricSaInternal, PromQuery, hsame, hq, assertVector]
      | vector total =>
        simp [GetMetricSaInternal, PromQuery, hsame, hq, hfail, hempty, assertVector,
          subtractNotReady]
  · intro total h1 hresolves
    obtain ⟨rows, log', hret, hfilter⟩ :=
      GetMetricSaInternal_filter e re b s typeEndpoint aggr log total (.error err) hresolves h1
        (by simpa [Except.map] using hfail)
    have hrows : ∀ endpoint ∈ total.map Sample.endpoint, ∃ count products,
        (seedAvail total).get? endpoint = some count ∧
        FindProductsForEndpoint re (s.owners endpoint) endpoint e.mapKeyEndpoint =
          some products ∧
        rows.filter (fun r => r.Endpoint = endpoint) =
          products.map (fun product =>
            (⟨product, typeEndpoint, endpoint, ReadyValue count⟩ :
              ProductTypeEndpointValue)) := by
      intro endpoint hendpoint
      obtain ⟨products, hproducts⟩ := hresolves endpoint hendpoint
      cases hget : (seedAvail total).get? endpoint with
      | none =>
        rw [GoMap.get?_eq_none_iff, seedAvail_keys] at hget
        exact absurd hendpoint hget
      | some count =>
        have hf := hfilter endpoint
        simp only [availableCounts, hget, hproducts, Option.getD_some] at hf
        exact ⟨count, products, rfl, hproducts, hf⟩
    refine ⟨rows, log', hret, hrows, ?_⟩
    intro hnodup elem helem r hr hre
    obtain ⟨count, products, hcount, _, hf⟩ :=
      hrows elem.endpoint (List.mem_map.mpr ⟨elem, helem, rfl⟩)
    rw [seedAvail_get? total elem hnodup helem] at hcount
    cases hcount
    have hin : r ∈ rows.filter (fun r => r.Endpoint = elem.endpoint) :=
      List.mem_filter.mpr ⟨hr, by simpa using hre⟩
    rw [hf] at hin
    obtain ⟨p, _, hp⟩ := List.mem_map.mp hin
    rw [← hp]

/-- C17 on two runs of `carExporter` for the batch type, `Motor` with 2
addresses and `Axle` with none: the not-ready query times out in one and
returns no row in the other. -/
theorem GetMetricSaInternal_not_ready_fails_witness :
    GetMetricSaInternal carExporter literalRegexp
        (scriptedBackend [.ok (.vector [sampleOf "Motor" 2, sampleOf "Axle" 0]),
          .error "timeout"])
        Sched.stored "batch" "5m" [] =
      GetMetricSaInternal carExporter literalRegexp
        (scriptedBackend [.ok (.vector [sampleOf "Motor" 2, sampleOf "Axle" 0]),
          .ok (.vector [])])
        Sched.stored "batch" "5m" [] ∧
    ∃ rows log',
      GetMetricSaInternal carExporter literalRegexp
        (scriptedBackend [.ok (.vector [sampleOf "Motor" 2, sampleOf "Axle" 0]),
          .error "timeout"])
        Sched.stored "batch" "5m" [] = some (rows, log') ∧
      ∀ elem ∈ [sampleOf "Motor" 2, sampleOf "Axle" 0], ∀ r ∈ rows,
        r.Endpoint = elem.endpoint → r.Value = ReadyValue elem.Value := by
  have h := GetMetricSaInternal_not_ready_fails carExporter literalRegexp
    (scriptedBackend [.ok (.vector [sampleOf "Motor" 2, sampleOf "Axle" 0]), .error "timeout"])
    (scriptedBackend [.ok (.vector [sampleOf "Motor" 2, sampleOf "Axle" 0]), .ok (.vector [])])
    Sched.stored "batch" "5m" [] "timeout" rfl rfl rfl
  refine ⟨h.1, ?_⟩
  obtain ⟨rows, log', hret, _, hvalue⟩ :=
    h.2 [sampleOf "Motor" 2, sampleOf "Axle" 0] rfl
      (fun endpoint _ => FindProductsForEndpoint_isSome literalRegexp _ endpoint _
        (fun entry _ => rfl))
  exact ⟨rows, log', hret, hvalue (by decide)⟩

/-- C18: every row GetMetricSaInternal returns has the value 0 or the value 1,
whatever the topology, the type and the answers of the backend. -/
theorem GetMetricSaInternal_binary (e : Exporter) (re : Regexp) (b : Backend) (s : Sched)
    (typeEndpoint aggr : String) (log : List String)
    (rows : List ProductTypeEndpointValue) (log' : List String)
    (hret : GetMetricSaInternal e re b s typeEndpoint aggr log = some (rows, log')) :
    ∀ r ∈ rows, r.Value = 0 ∨ r.Value = 1 := by
  intro r hr
  obtain ⟨m, hemit⟩ := GetMetricSaInternal_some_emit e re b s typeEndpoint aggr log rows log' hret
  rcases emitRows_mem re s.owners typeEndpoint e.mapKeyEndpoint _ [] rows hemit r hr with
    hnil | ⟨kv, _, _, hvalue, _⟩
  · simp at hnil
  · rw [hvalue]
    unfold ReadyValue
    by_cases hz : kv.2 = 0
    · simp [hz]
    · simp [hz]

theorem wheel_run :
    GetMetricSaInternal carExporter literalRegexp
      (scriptedBackend [.ok (.vector [sampleOf "Wheel" 3, sampleOf "Motor" 1]),
        .ok (.vector [sampleOf "Wheel" 1, sampleOf "Motor" 1])])
      Sched.stored "interactive" "1m" [] =
      some ([⟨"Car", "interactive", "Wheel", 1⟩, ⟨"Car", "interactive", "Motor", 0⟩],
        ["sum by (endpoint)(kube_endpoint_address\x7bendpoint=~\"Wheel|\"\x7d)",
         "sum by (endpoint)(kube_endpoint_address\x7bendpoint=~\"Wheel|\",ready=\"false\"\x7d)"]) := by
  simp [GetMetricSaInternal, PromQuery, carExporter, scriptedBackend, assertVector, seedAvail,
    subtractNotReady, emitRows, FindProductsForEndpoint, findProductsLoop, literalRegexp,
    Sched.stored, RangeOrder.stored, GoMap.set, GoMap.get?, sampleOf, Sample.endpoint,
    ReadyValue, queryAllAdressSvc, queryNotReadyAddressSvc, BuildSaQueryEndpoints,
    subFloat64_three_one, subFloat64_self]

/-- C18 on a run where `Wheel` has 3 addresses, 1 of them not ready, and
`Motor` has 1, not ready: the rows carry 1 and 0, not the counts 2 and 0. -/
theorem GetMetricSaInternal_binary_witness :
    GetMetricSaInternal carExporter literalRegexp
        (scriptedBackend [.ok (.vector [sampleOf "Wheel" 3, sampleOf "Motor" 1]),
          .ok (.vector [sampleOf "Wheel" 1, sampleOf "Motor" 1])])
        Sched.stored "interactive" "1m" [] =
      some ([⟨"Car", "interactive", "Wheel", 1⟩, ⟨"Car", "interactive", "Motor", 0⟩],
        ["sum by (endpoint)(kube_endpoint_address\x7bendpoint=~\"Wheel|\"\x7d)",
         "sum by (endpoint)(kube_endpoint_address\x7bendpoint=~\"Wheel|\",ready=\"false\"\x7d)"]) ∧
    ((⟨"Car", "interactive", "Wheel", 1⟩ : ProductTypeEndpointValue).Value = 0 ∨
      (⟨"Car", "interactive", "Wheel", 1⟩ : ProductTypeEndpointValue).Value = 1) ∧
    ((⟨"Car", "interactive", "Motor", 0⟩ : ProductTypeEndpointValue).Value = 0 ∨
      (⟨"Car", "interactive", "Motor", 0⟩ : ProductTypeEndpointValue).Value = 1) :=
  ⟨wheel_run,
   GetMetricSaInternal_binary carExporter literalRegexp
    (scriptedBackend [.ok (.vector [sampleOf "Wheel" 3, sampleOf "Motor" 1]),
      .ok (.vector [sampleOf "Wheel" 1, sampleOf "Motor" 1])])
    Sched.stored "interactive" "1m" [] _ _ wheel_run _ (List.mem_cons_self _ _),
   GetMetricSaInternal_binary carExporter literalRegexp
    (scriptedBackend [.ok (.vector [sampleOf "Wheel" 3, sampleOf "Motor" 1]),
      .ok (.vector [sampleOf "Wheel" 1, sampleOf "Motor" 1])])
    Sched.stored "interactive" "1m" [] _ _ wheel_run _
    (List.mem_cons_of_mem _ (List.mem_cons_self _ _))⟩

/-! ### ExtractValues -/

theorem ExtractValues_eq_of_pairs (product : String) (rows : List ProductTypeEndpointValue) :
    ExtractValues product rows =
      ((rows.map (fun elem => (elem.Product, elem.Value))).filter
        (fun pair => pair.1 = product)).map Prod.snd := by
  induction rows with
  | nil => rfl
  | cons x rest ih =>
    by_cases h : x.Product = product
    · simp [ExtractValues, h, ih]
    · simp [ExtractValues, h, ih]

/-- C20: ExtractValues returns the values of the rows whose product is the
given name, in their order; the result is empty when no row has that product;
and it is the same for two row lists that agree on products and values,
whatever their types and endpoints. -/
theorem ExtractValues_spec (product : String) (rows : List ProductTypeEndpointValue) :
    ExtractValues product rows =
      (rows.filter (fun elem => elem.Product = product)).map ProductTypeEndpointValue.Value ∧
    ((∀ elem ∈ rows, elem.Product ≠ product) → ExtractValues product rows = []) ∧
    ∀ rows' : List ProductTypeEndpointValue,
      rows'.map (fun elem => (elem.Product, elem.Value)) =
        rows.map (fun elem => (elem.Product, elem.Value)) →
      ExtractValues product rows' = ExtractValues product rows := by
  refine ⟨ExtractValues_eq_filter_map product rows, ?_, ?_⟩
  · intro hnone
    rw [ExtractValues_eq_filter_map]
    have hnil : rows.filter (fun elem => elem.Product = product) = [] := by
      rw [List.filter_eq_nil_iff]
      intro elem helem
      simpa using hnone elem helem
    rw [hnil]
    rfl
  · intro rows' hpairs
    rw [ExtractValues_eq_of_pairs product rows', ExtractValues_eq_of_pairs product rows, hpairs]

/-- C20 on the rows of the edge-case test: two values for `Product1`, one for
`Product2`, none for `NonExistent`. -/
theorem ExtractValues_spec_witness :
    ExtractValues "Product1"
        [⟨"Product1", "interactive", "endpoint1", 1⟩, ⟨"Product1", "batch", "endpoint2", 1 / 2⟩,
         ⟨"Product2", "interactive", "endpoint3", 0⟩] = [1, 1 / 2] ∧
    ExtractValues "Product2"
        [⟨"Product1", "interactive", "endpoint1", 1⟩, ⟨"Product1", "batch", "endpoint2", 1 / 2⟩,
         ⟨"Product2", "interactive", "endpoint3", 0⟩] = [0] ∧
    ExtractValues "NonExistent"
        [⟨"Product1", "interactive", "endpoint1", 1⟩, ⟨"Product1", "batch", "endpoint2", 1 / 2⟩,
         ⟨"Product2", "interactive", "endpoint3", 0⟩] = [] :=
  ⟨by
      rw [(ExtractValues_spec "Product1" _).1]
      simp,
    by
      rw [(ExtractValues_spec "Product2" _).1]
      simp,
    (ExtractValues_spec "NonExistent" _).2.1 (by simp)⟩

/-! ### The end-to-end scenario -/

theorem perm_pair {α : Type} (l : List α) (a b : α) (h : l.Perm [a, b]) :
    l = [a, b] ∨ l = [b, a] := by
  have hlen := h.length_eq
  match l, hlen with
  | [x, y], _ =>
    have hx : x ∈ [a, b] := h.mem_iff.mp (List.mem_cons_self _ _)
    have hy : y ∈ [a, b] := h.mem_iff.mp (List.mem_cons_of_mem _ (List.mem_cons_self _ _))
    have ha : a ∈ [x, y] := h.mem_iff.mpr (List.mem_cons_self _ _)
    have hb : b ∈ [x, y] := h.mem_iff.mpr (List.mem_cons_of_mem _ (List.mem_cons_self _ _))
    simp only [List.mem_cons, List.mem_singleton, List.not_mem_nil, or_false] at hx hy ha hb
    rcases hx with hx | hx <;> rcases hy with hy | hy
    · subst hx; subst hy
      rcases hb with hb | hb <;> (subst hb; exact Or.inl rfl)
    · subst hx; subst hy; exact Or.inl rfl
    · subst hx; subst hy; exact Or.inr rfl
    · subst hx; subst hy
      rcases ha with ha | ha <;> (subst ha; exact Or.inl rfl)

theorem car_owner (ro : RangeOrder (List String)) (endpoint : String)
    (h : endpoint = "Wheel" ∨ endpoint = "Motor" ∨ endpoint = "Axle") :
    FindProductsForEndpoint literalRegexp ro endpoint carExporter.mapKeyEndpoint =
      some ["Car"] := by
  obtain ⟨products, hproducts⟩ :=
    FindProductsForEndpoint_isSome literalRegexp ro endpoint carExporter.mapKeyEndpoint
      (fun entry _ => rfl)
  rw [hproducts]
  rcases FindProductsForEndpoint_result literalRegexp ro endpoint carExporter.mapKeyEndpoint
    products hproducts with ⟨entry, hentry, _, hprod⟩ | ⟨hnone, _⟩
  · simp only [carExporter, List.mem_cons, List.mem_singleton, List.not_mem_nil,
      or_false] at hentry
    rcases hentry with he | he | he <;> (rw [hprod, he])
  · exfalso
    rcases h with h | h | h
    · exact hnone ("Wheel", ["Car"]) (by simp [carExporter]) ⟨_, rfl, by rw [h]; decide⟩
    · exact hnone ("Motor", ["Car"]) (by simp [carExporter]) ⟨_, rfl, by rw [h]; decide⟩
    · exact hnone ("Axle", ["Car"]) (by simp [carExporter]) ⟨_, rfl, by rw [h]; decide⟩

theorem car_interactive (s : Sched) (aggr : String) (log : List String) :
    GetMetricSaInternal carExporter literalRegexp carBackend s "interactive" aggr log =
      some ([⟨"Car", "interactive", "Wheel", 1⟩],
        log ++ [queryAllAdressSvc "Wheel|"] ++ [queryNotReadyAddressSvc "Wheel|"]) := by
  have hq : BuildSaQueryEndpoints "interactive" carExporter.mapKeyType = "Wheel|" := by decide
  rw [GetMetricSaInternal_eq carExporter literalRegexp carBackend s "interactive" aggr log
    [sampleOf "Wheel" 2] (.ok [sampleOf "Wheel" 0]) (by rw [hq]; rfl) (by rw [hq]; rfl)]
  have hcounts : availableCounts [sampleOf "Wheel" 2] (.ok [sampleOf "Wheel" 0]) =
      [("Wheel", 2)] := by
    simp [availableCounts, seedAvail, subtractNotReady, GoMap.set, GoMap.get?, sampleOf,
      Sample.endpoint, subFloat64_two_zero]
  have horder : s.avail.order [("Wheel", 2)] = [("Wheel", 2)] :=
    (s.avail.perm _).eq_singleton
  rw [hcounts, horder, hq]
  simp [emitRows, car_owner, ReadyValue]

theorem car_batch (s : Sched) (aggr : String) (log : List String) :
    ∃ rows, (rows = [⟨"Car", "batch", "Motor", 1⟩, ⟨"Car", "batch", "Axle", 0⟩] ∨
        rows = [⟨"Car", "batch", "Axle", 0⟩, ⟨"Car", "batch", "Motor", 1⟩]) ∧
      GetMetricSaInternal carExporter literalRegexp carBackend s "batch" aggr log =
        some (rows, log ++ [queryAllAdressSvc "Motor|Axle|"] ++
          [queryNotReadyAddressSvc "Motor|Axle|"]) := by
  have hq : BuildSaQueryEndpoints "batch" carExporter.mapKeyType = "Motor|Axle|" := by decide
  rw [GetMetricSaInternal_eq carExporter literalRegexp carBackend s "batch" aggr log
    [sampleOf "Motor" 1, sampleOf "Axle" 0] (.ok [sampleOf "Motor" 0])
    (by rw [hq]; rfl) (by rw [hq]; rfl)]
  have hcounts : availableCounts [sampleOf "Motor" 1, sampleOf "Axle" 0]
      (.ok [sampleOf "Motor" 0]) = [("Motor", 1), ("Axle", 0)] := by
    simp [availableCounts, seedAvail, subtractNotReady, GoMap.set, GoMap.get?, sampleOf,
      Sample.endpoint, subFloat64_one_zero]
  rw [hcounts, hq]
  rcases perm_pair _ _ _ (s.avail.perm [("Motor", 1), ("Axle", 0)]) with horder | horder
  · exact ⟨_, Or.inl rfl, by rw [horder]; simp [emitRows, car_owner, ReadyValue]⟩
  · exact ⟨_, Or.inr rfl, by rw [horder]; simp [emitRows, car_owner, ReadyValue]⟩

/-- C19: in the end-to-end scenario, under every order of the `range`
statements, the interactive rows are the one row `Wheel` = 1, the batch rows
are `Motor` = 1 and `Axle` = 0 in some order, all of product `Car`; HitProm
sends the per-endpoint gauges of these rows, and its rollup gauges are exactly
those of `Car`: interactive 1, batch 0, overall 0. -/
theorem car_scenario (cs : CycleSched) (log : List String) :
    ∃ saInternalBatch sent,
      GetMetricSaInternal carExporter literalRegexp carBackend cs.interactive "interactive"
          carExporter.saInteractiveAggr log =
        some ([⟨"Car", "interactive", "Wheel", 1⟩],
          log ++ [queryAllAdressSvc "Wheel|"] ++ [queryNotReadyAddressSvc "Wheel|"]) ∧
      GetMetricSaInternal carExporter literalRegexp carBackend cs.batch "batch"
          carExporter.saBatchAggr
          (log ++ [queryAllAdressSvc "Wheel|"] ++ [queryNotReadyAddressSvc "Wheel|"]) =
        some (saInternalBatch,
          log ++ [queryAllAdressSvc "Wheel|"] ++ [queryNotReadyAddressSvc "Wheel|"] ++
            [queryAllAdressSvc "Motor|Axle|"] ++ [queryNotReadyAddressSvc "Motor|Axle|"]) ∧
      saInternalBatch.Perm [⟨"Car", "batch", "Motor", 1⟩, ⟨"Car", "batch", "Axle", 0⟩] ∧
      HitProm carExporter literalRegexp carBackend cs log =
        some (sent,
          log ++ [queryAllAdressSvc "Wheel|"] ++ [queryNotReadyAddressSvc "Wheel|"] ++
            [queryAllAdressSvc "Motor|Axle|"] ++ [queryNotReadyAddressSvc "Motor|Axle|"]) ∧
      (sent.filter (fun m => m.desc = Desc.metricSaInternal)).Perm
        [⟨Desc.metricSaInternal, 1, ["Car", "interactive", "Wheel"]⟩,
         ⟨Desc.metricSaInternal, 1, ["Car", "batch", "Motor"]⟩,
         ⟨Desc.metricSaInternal, 0, ["Car", "batch", "Axle"]⟩] ∧
      sent.filter (fun m => m.desc ≠ Desc.metricSaInternal) =
        [⟨Desc.metricSaType, 1, ["Car", "interactive"]⟩,
         ⟨Desc.metricSaType, 0, ["Car", "batch"]⟩,
         ⟨Desc.metricSaOverall, 0, ["Car"]⟩] := by
  have hI := car_interactive cs.interactive carExporter.saInteractiveAggr log
  obtain ⟨rows, hrows, hB⟩ := car_batch cs.batch carExporter.saBatchAggr
    (log ++ [queryAllAdressSvc "Wheel|"] ++ [queryNotReadyAddressSvc "Wheel|"])
  have hsent : HitProm carExporter literalRegexp carBackend cs log =
      some (publish cs.products [⟨"Car", "interactive", "Wheel", 1⟩] rows,
        log ++ [queryAllAdressSvc "Wheel|"] ++ [queryNotReadyAddressSvc "Wheel|"] ++
          [queryAllAdressSvc "Motor|Axle|"] ++ [queryNotReadyAddressSvc "Motor|Axle|"]) := by
    simp only [HitProm, hI, hB]
  refine ⟨rows, _, hI, hB, ?_, hsent, ?_, ?_⟩
  · rcases hrows with h | h
    · rw [h]
    · rw [h]; exact List.Perm.swap _ _ _
  · rcases hrows with h | h
    · subst h
      have hset : FindProductsFromQueryResult
          [⟨"Car", "batch", "Motor", 1⟩, ⟨"Car", "batch", "Axle", 0⟩] = [("Car", ())] := by
        simp [FindProductsFromQueryResult, GoMap.set]
      have horder : cs.products.order [("Car", ())] = [("Car", ())] :=
        (cs.products.perm _).eq_singleton
      simp [publish, hset, horder, internalMetric, productMetrics]
    · subst h
      have hset : FindProductsFromQueryResult
          [⟨"Car", "batch", "Axle", 0⟩, ⟨"Car", "batch", "Motor", 1⟩] = [("Car", ())] := by
        simp [FindProductsFromQueryResult, GoMap.set]
      have horder : cs.products.order [("Car", ())] = [("Car", ())] :=
        (cs.products.perm _).eq_singleton
      simp [publish, hset, horder, internalMetric, productMetrics]
      exact List.Perm.swap _ _ _
  · rcases hrows with h | h
    · subst h
      have hset : FindProductsFromQueryResult
          [⟨"Car", "batch", "Motor", 1⟩, ⟨"Car", "batch", "Axle", 0⟩] = [("Car", ())] := by
        simp [FindProductsFromQueryResult, GoMap.set]
      have horder : cs.products.order [("Car", ())] = [("Car", ())] :=
        (cs.products.perm _).eq_singleton
      simp [publish, hset, horder, internalMetric, productMetrics, ExtractValues,
        ZeroAlwaysWin]
    · subst h
      have hset : FindProductsFromQueryResult
          [⟨"Car", "batch", "Axle", 0⟩, ⟨"Car", "batch", "Motor", 1⟩] = [("Car", ())] := by
        simp [FindProductsFromQueryResult, GoMap.set]
      have horder : cs.products.order [("Car", ())] = [("Car", ())] :=
        (cs.products.perm _).eq_singleton
      simp [publish, hset, horder, internalMetric, productMetrics, ExtractValues,
        ZeroAlwaysWin]

/-! ### FindProductsFromQueryResult -/

/-- C21: a product name is a member of the set FindProductsFromQueryResult
returns exactly when some row has that product; the members are pairwise
distinct, so rows repeating a product contribute one member; the empty list
gives the empty set. -/
theorem FindProductsFromQueryResult_spec (rows : List ProductTypeEndpointValue) :
    (∀ product, (FindProductsFromQueryResult rows).get? product = some () ↔
      ∃ elem ∈ rows, elem.Product = product) ∧
    (∀ product, product ∈ (FindProductsFromQueryResult rows).map Prod.fst ↔
      ∃ elem ∈ rows, elem.Product = product) ∧
    ((FindProductsFromQueryResult rows).map Prod.fst).Nodup ∧
    (∀ elem ∈ rows, ((FindProductsFromQueryResult rows).map Prod.fst).count elem.Product = 1) ∧
    FindProductsFromQueryResult [] = [] := by
  have hkeys : ∀ product, product ∈ (FindProductsFromQueryResult rows).map Prod.fst ↔
      ∃ elem ∈ rows, elem.Product = product := by
    intro product
    rw [FindProductsFromQueryResult_keys]
    simp only [List.mem_map]
  have hwf : ((FindProductsFromQueryResult rows).map Prod.fst).Nodup :=
    FindProductsFromQueryResult_WF rows
  refine ⟨?_, hkeys, hwf, ?_, rfl⟩
  · intro product
    rw [← hkeys]
    constructor
    · intro hget
      by_contra hnot
      rw [(GoMap.get?_eq_none_iff _ product).mpr hnot] at hget
      cases hget
    · intro hin
      cases hget : (FindProductsFromQueryResult rows).get? product with
      | none => exact absurd hin ((GoMap.get?_eq_none_iff _ product).mp hget)
      | some u => rfl
  · intro elem helem
    exact List.count_eq_one_of_mem hwf ((hkeys elem.Product).mpr ⟨elem, helem, rfl⟩)

/-- C21 on the rows of the edge-case test: `Product1` occurs twice and is one
member, `Product2` is a member, `Product3` is not. -/
theorem FindProductsFromQueryResult_spec_witness :
    FindProductsFromQueryResult
        [⟨"Product1", "interactive", "endpoint1", 1⟩, ⟨"Product1", "batch", "endpoint2", 1 / 2⟩,
         ⟨"Product2", "interactive", "endpoint3", 0⟩] =
      [("Product1", ()), ("Product2", ())] ∧
    ((FindProductsFromQueryResult
        [⟨"Product1", "interactive", "endpoint1", 1⟩, ⟨"Product1", "batch", "endpoint2", 1 / 2⟩,
         ⟨"Product2", "interactive", "endpoint3", 0⟩]).map Prod.fst).count "Product1" = 1 ∧
    ¬ (FindProductsFromQueryResult
        [⟨"Product1", "interactive", "endpoint1", 1⟩, ⟨"Product1", "batch", "endpoint2", 1 / 2⟩,
         ⟨"Product2", "interactive", "endpoint3", 0⟩]).get? "Product3" = some () :=
  ⟨by simp [FindProductsFromQueryResult, GoMap.set],
   (FindProductsFromQueryResult_spec _).2.2.2.1 ⟨"Product1", "interactive", "endpoint1", 1⟩
     (List.mem_cons_self _ _),
   fun h => by
     obtain ⟨elem, helem, hproduct⟩ := ((FindProductsFromQueryResult_spec _).1 "Product3").mp h
     simp only [List.mem_cons, List.mem_singleton, List.not_mem_nil, or_false] at helem
     rcases helem with h | h | h <;> (rw [h] at hproduct; revert hproduct; decide)⟩

/-! ### The two-level rollup -/

theorem ZeroAlwaysWin_kind (valuesIn : List ℚ) (kind kind' : String) :
    ZeroAlwaysWin valuesIn kind = ZeroAlwaysWin valuesIn kind' := by
  induction valuesIn with
  | nil => rfl
  | cons v rest ih => simp only [ZeroAlwaysWin, ih]

theorem ZeroAlwaysWin_zero_or_one (valuesIn : List ℚ) (kind : String) :
    ZeroAlwaysWin valuesIn kind = 0 ∨ ZeroAlwaysWin valuesIn kind = 1 := by
  induction valuesIn with
  | nil => exact Or.inr rfl
  | cons v rest ih =>
    by_cases h : v < 1
    · simp [ZeroAlwaysWin, h]
    · simpa [ZeroAlwaysWin, h] using ih

theorem ZeroAlwaysWin_eq_one_iff (valuesIn : List ℚ) (kind : String) :
    ZeroAlwaysWin valuesIn kind = 1 ↔ ∀ v ∈ valuesIn, ¬ v < 1 := by
  induction valuesIn with
  | nil => simp [ZeroAlwaysWin]
  | cons v rest ih =>
    by_cases h : v < 1
    · simp only [ZeroAlwaysWin, h, if_true, List.mem_cons]
      constructor
      · intro h0
        exact absurd h0 (by norm_num)
      · intro hall
        exact absurd h (hall v (Or.inl rfl))
    · simp only [ZeroAlwaysWin, h, if_false, ih, List.mem_cons]
      constructor
      · rintro hall w (hw | hw)
        · exact hw ▸ h
        · exact hall w hw
      · intro hall w hw
        exact hall w (Or.inr hw)

theorem ZeroAlwaysWin_append (a b : List ℚ) (kind : String) :
    ZeroAlwaysWin (a ++ b) kind =
      if ZeroAlwaysWin a kind = 1 then ZeroAlwaysWin b kind else 0 := by
  induction a with
  | nil => simp [ZeroAlwaysWin]
  | cons v rest ih =>
    by_cases h : v < 1
    · simp [ZeroAlwaysWin, h]
    · simp [ZeroAlwaysWin, h, ih]

/-- C22: the rollup of the two-element sequence of the rollups of `a` and of
`b` is the rollup of `a ++ b`, whatever the kind labels; hence the overall
gauge in the product loop of HitProm is the rollup of the interactive values
followed by the batch values of the product, and it is 1 exactly when no
interactive or batch row of the product has a value below 1. -/
theorem ZeroAlwaysWin_two_level (a b : List ℚ) (kindA kindB kindOverall kind : String) :
    ZeroAlwaysWin [ZeroAlwaysWin a kindA, ZeroAlwaysWin b kindB] kindOverall =
      ZeroAlwaysWin (a ++ b) kind ∧
    ∀ (saInternalInteractive saInternalBatch : List ProductTypeEndpointValue)
      (product : String),
      ∀ m ∈ productMetrics saInternalInteractive saInternalBatch product,
        m.desc = Desc.metricSaOverall →
        m.value = ZeroAlwaysWin (ExtractValues product saInternalInteractive ++
          ExtractValues product saInternalBatch) kind ∧
        (m.value = 1 ↔ ∀ r ∈ saInternalInteractive ++ saInternalBatch,
          r.Product = product → ¬ r.Value < 1) := by
  have htwo : ∀ (x y : List ℚ) (k1 k2 k3 k4 : String),
      ZeroAlwaysWin [ZeroAlwaysWin x k1, ZeroAlwaysWin y k2] k3 = ZeroAlwaysWin (x ++ y) k4 := by
    intro x y k1 k2 k3 k4
    rw [ZeroAlwaysWin_append, ZeroAlwaysWin_kind x k1 k4, ZeroAlwaysWin_kind y k2 k4]
    rcases ZeroAlwaysWin_zero_or_one x k4 with hx | hx <;>
      rcases ZeroAlwaysWin_zero_or_one y k4 with hy | hy <;>
      simp [ZeroAlwaysWin, hx, hy]
  refine ⟨htwo a b kindA kindB kindOverall kind, ?_⟩
  intro saInternalInteractive saInternalBatch product m hm hdesc
  simp only [productMetrics, List.mem_cons, List.mem_singleton, List.not_mem_nil,
    or_false] at hm
  have hvalue : m.value = ZeroAlwaysWin (ExtractValues product saInternalInteractive ++
      ExtractValues product saInternalBatch) kind := by
    rcases hm with h | h | h
    · rw [h] at hdesc; cases hdesc
    · rw [h] at hdesc; cases hdesc
    · rw [h]
      exact htwo _ _ _ _ _ _
  refine ⟨hvalue, ?_⟩
  rw [hvalue, ZeroAlwaysWin_eq_one_iff, ExtractValues_eq_filter_map, ExtractValues_eq_filter_map]
  simp only [List.mem_append, List.mem_map, List.mem_filter, decide_eq_true_eq]
  constructor
  · intro h r hr hproduct
    rcases hr with hr | hr
    · exact h r.Value (Or.inl ⟨r, ⟨hr, hproduct⟩, rfl⟩)
    · exact h r.Value (Or.inr ⟨r, ⟨hr, hproduct⟩, rfl⟩)
  · rintro h v (⟨r, ⟨hr, hproduct⟩, hv⟩ | ⟨r, ⟨hr, hproduct⟩, hv⟩)
    · exact hv ▸ h r (Or.inl hr) hproduct
    · exact hv ▸ h r (Or.inr hr) hproduct

/-! ### openServices -/

/-- C23, at the failing input: the second decoded record has an empty
endpoints list, and the logging loop of openServices panics on its index 0
instead of returning the decoded list; without that record the list is
returned. -/
theorem openServices_empty_endpoints_panics :
    openServices (.decoded [⟨"Car", "interactive", ["Wheel"]⟩, ⟨"Bus", "batch", []⟩]) = none ∧
    openServices (.decoded [⟨"Car", "interactive", ["Wheel"]⟩]) =
      some [⟨"Car", "interactive", ["Wheel"]⟩] := by
  constructor <;> decide

end SaExporter
